import Mathlib

/-!
Verification development for the bsc-devour manifest ingestion engine.

The TypeScript source is shallowly embedded: JSON runtime values become the
inductive `JSValue`, the `ResErr<T>` result type becomes an inductive sum,
JavaScript property access (which throws a `TypeError` on `null`/`undefined`)
is embedded in the `Except String` monad, and in-place document mutation is
embedded as explicit rebuilding of the owning value.  Repository code that is
not part of the provided sources (the generic type-conformance checker's
schemas, the compact-notation parsers, and the three sub-file verifier
functions) is modelled from the specification; each such definition carries a
doc comment starting with "Modelled from the spec:".
-/

namespace Devour

/-- Runtime JSON-like values as produced by `JSON.parse`, extended with
`undefined` (the result of reading an absent property). -/
inductive JSValue where
  | undefined : JSValue
  | null : JSValue
  | boolV : Bool → JSValue
  | num : Int → JSValue
  | str : String → JSValue
  | arr : List JSValue → JSValue
  | obj : List (String × JSValue) → JSValue

/-- The TypeScript `ResErr<T>` discriminated union:
`{result: T, error: null} | {result: null, error: E}` with `E = string`. -/
inductive ResErr (α : Type) where
  | ok : α → ResErr α
  | err : String → ResErr α

/-- Models the JavaScript test `v === undefined || v === null`. -/
def isMissing : JSValue → Bool
  | .undefined => true
  | .null => true
  | _ => false

/-- First-match field lookup in an object's field list (JSON-parsed objects
carry each key at most once). -/
def lookupField : List (String × JSValue) → String → Option JSValue
  | [], _ => none
  | (k', v) :: rest, k => if k' = k then some v else lookupField rest k

/-- Models JavaScript property assignment `obj[k] = v`: replaces the value of
an existing key in place, otherwise appends the key. -/
def setFields : List (String × JSValue) → String → JSValue → List (String × JSValue)
  | [], k, v => [(k, v)]
  | (k', v') :: rest, k, v => if k' = k then (k, v) :: rest else (k', v') :: setFields rest k v

/-- Total property read, used at places where the source has already
established that the receiver is not `null`/`undefined` (so no throw can
happen): objects look the key up, every other non-nullish value yields
`undefined`, mirroring JavaScript. -/
def jsGet0 : JSValue → String → JSValue
  | .obj fs, k => (lookupField fs k).getD .undefined
  | _, _ => .undefined

/-- Property read with JavaScript exception semantics: reading a property of
`null` or `undefined` throws a `TypeError`. -/
def jsGetField (v : JSValue) (k : String) : Except String JSValue :=
  match v with
  | .undefined => .error ("TypeError: Cannot read properties of undefined (reading '" ++ k ++ "')")
  | .null => .error ("TypeError: Cannot read properties of null (reading '" ++ k ++ "')")
  | other => .ok (jsGet0 other k)

/-- Property write on an object; on any other value the write is a no-op
(never reached on a non-object in the embedded code paths). -/
def jsSetField (v : JSValue) (k : String) (x : JSValue) : JSValue :=
  match v with
  | .obj fs => .obj (setFields fs k x)
  | other => other

/-- Models the JavaScript comparison `v === "lit"` for a string literal. -/
def jsEqStr : JSValue → String → Bool
  | .str s, t => s = t
  | _, _ => false

/-- Field-shape helper: the key is present and holds a string. -/
def isStrField (fs : List (String × JSValue)) (k : String) : Bool :=
  match lookupField fs k with
  | some (.str _) => true
  | _ => false

/-- Field-shape helper: the key is present and holds a number. -/
def isNumField (fs : List (String × JSValue)) (k : String) : Bool :=
  match lookupField fs k with
  | some (.num _) => true
  | _ => false

/-- Field-shape helper: the key is present and holds an object. -/
def isObjField (fs : List (String × JSValue)) (k : String) : Bool :=
  match lookupField fs k with
  | some (.obj _) => true
  | _ => false

/-- Field-shape helper: the key is absent, `null`, or holds a string
(an optional string field as used for `sslMode`). -/
def isOptStrField (fs : List (String × JSValue)) (k : String) : Bool :=
  match lookupField fs k with
  | none => true
  | some .null => true
  | some (.str _) => true
  | _ => false

/-- Modelled from the spec: the external Type Conformance Checker applied to
`DBDSN_TYPEDECL` (neither `conformsToType` nor the schema are in src/).
Per the spec's data model, a DSN object carries `host`, `port`, `username`,
`password`, `dbName` (required) and an optional `sslMode` that defaults to
"disable" when absent; extra fields are not rejected. -/
def conformsToDBDSN (v : JSValue) : Option String :=
  match v with
  | .obj fs =>
    if !isStrField fs "host" then some "Field host is missing or not a string"
    else if !isNumField fs "port" then some "Field port is missing or not a number"
    else if !isStrField fs "username" then some "Field username is missing or not a string"
    else if !isStrField fs "password" then some "Field password is missing or not a string"
    else if !isStrField fs "dbName" then some "Field dbName is missing or not a string"
    else if !isOptStrField fs "sslMode" then some "Field sslMode is present but not a string"
    else none
  | _ => some "Value is not an object"

/-- Modelled from the spec: the Type Conformance Checker applied to
`TRANSFORM_DTO_TYPEDECL` (not in src/).  A canonical transform is a
structured object; following the "rotate 90" example it is modelled with a
`kind` string and an `amount` number. -/
def conformsToTransformDTO (v : JSValue) : Option String :=
  match v with
  | .obj fs =>
    if !isStrField fs "kind" then some "Field kind is missing or not a string"
    else if !isNumField fs "amount" then some "Field amount is missing or not a number"
    else none
  | _ => some "Value is not an object"

/-- Character-level splitting worker (the library's `String.splitOn` is not
kernel-reducible, so delimited-shorthand parsing is embedded over character
lists). -/
def splitChars (c : Char) : List Char → List Char → List (List Char)
  | [], acc => [acc.reverse]
  | x :: xs, acc => if x = c then acc.reverse :: splitChars c xs [] else splitChars c xs (x :: acc)

/-- Splits a character list at every occurrence of the separator. -/
def splitOnChar (c : Char) (s : List Char) : List (List Char) := splitChars c s []

/-- Removes leading and trailing spaces. -/
def trimChars (l : List Char) : List Char :=
  ((l.dropWhile (· = ' ')).reverse.dropWhile (· = ' ')).reverse

/-- Accumulates a decimal digit sequence; any non-digit fails. -/
def digitsVal : List Char → Nat → Option Nat
  | [], acc => some acc
  | d :: ds, acc => if d.isDigit then digitsVal ds (acc * 10 + (d.toNat - 48)) else none

/-- Parses an optionally negated decimal integer. -/
def charsToInt? (l : List Char) : Option Int :=
  match l with
  | [] => none
  | '-' :: ds => if ds = [] then none else (digitsVal ds 0).map (fun n => -(n : Int))
  | ds => (digitsVal ds 0).map (fun n => (n : Int))

/-- Modelled from the spec: `readCompactTransformNotationRaw` from the CLI
input processor (not in src/).  Parses the compact transform shorthand, a
single delimited string with a fixed field order (for example "rotate 90");
a malformed shorthand (wrong field count/format) fails with a descriptive
parse error. -/
def readCompactTransformNotationRaw (s : String) : ResErr JSValue :=
  match splitOnChar ' ' s.data with
  | [kind, amountStr] =>
    match charsToInt? amountStr with
    | some amount => .ok (.obj [("kind", .str (String.mk kind)), ("amount", .num amount)])
    | none => .err "Malformed compact transform shorthand: amount is not a number."
  | _ => .err "Malformed compact transform shorthand: wrong field count."

/-- Modelled from the spec: helper of `readCompactDSNNotationRaw` assembling
the canonical DSN object from the delimited parts. -/
def readDSNParts (hostPort userPass dbName ssl : List Char) : ResErr JSValue :=
  match splitOnChar ' ' hostPort, splitOnChar ' ' userPass with
  | [host, portStr], [username, password] =>
    match charsToInt? portStr with
    | some port =>
      .ok (.obj [("host", .str (String.mk host)), ("port", .num port),
                 ("username", .str (String.mk username)), ("password", .str (String.mk password)),
                 ("dbName", .str (String.mk dbName)), ("sslMode", .str (String.mk ssl))])
    | none => .err "Malformed compact DSN shorthand: port is not a number."
  | _, _ => .err "Malformed compact DSN shorthand: wrong field count."

/-- Modelled from the spec: `readCompactDSNNotationRaw` from the CLI input
processor (not in src/).  Parses the compact DSN shorthand
"host port, username password, dbName, sslMode" (fixed field order, SSL mode
optional and defaulting to "disable"); a malformed shorthand fails with a
descriptive parse error. -/
def readCompactDSNNotationRaw (s : String) : ResErr JSValue :=
  match (splitOnChar ',' s.data).map trimChars with
  | [hostPort, userPass, dbName] => readDSNParts hostPort userPass dbName "disable".data
  | [hostPort, userPass, dbName, ssl] => readDSNParts hostPort userPass dbName ssl
  | _ => .err "Malformed compact DSN shorthand: expected \"host port, username password, dbName, sslMode\"."

/-- Modelled from the spec: the Type Conformance Checker applied to
`INGEST_FILE_SINGLE_ASSET_TYPEDECL` (not in src/): a single asset entry is an
object with a `type` string, a `useCase` string and a `single` sub-object. -/
def conformsToSingleAsset (v : JSValue) : Option String :=
  match v with
  | .obj fs =>
    if !isStrField fs "type" then some "Field type is missing or not a string"
    else if !isStrField fs "useCase" then some "Field useCase is missing or not a string"
    else if !isObjField fs "single" then some "Field single is missing or not an object"
    else none
  | _ => some "Value is not an object"

/-- Modelled from the spec: the Type Conformance Checker applied to
`INGEST_FILE_SINGLE_ASSET_FIELD_TYPEDECL` (not in src/): the `single`
sub-object describes one asset, modelled with a required `source` string and
an optional numeric `id`. -/
def conformsToSingleField (v : JSValue) : Option String :=
  match v with
  | .obj fs =>
    if !isStrField fs "source" then some "Field source is missing or not a string"
    else
      match lookupField fs "id" with
      | none => none
      | some .null => none
      | some (.num _) => none
      | some _ => some "Field id is present but not a number"
  | _ => some "Value is not an object"

/-- Modelled from the spec: the Type Conformance Checker applied to
`INGEST_FILE_COLLECTION_ASSET_TYPEDECL` (not in src/): a collection asset is
an object with a `type` string, a `useCase` string, a `name` string and a
`collection` sub-object. -/
def conformsToCollectionAsset (v : JSValue) : Option String :=
  match v with
  | .obj fs =>
    if !isStrField fs "type" then some "Field type is missing or not a string"
    else if !isStrField fs "useCase" then some "Field useCase is missing or not a string"
    else if !isStrField fs "name" then some "Field name is missing or not a string"
    else if !isObjField fs "collection" then some "Field collection is missing or not an object"
    else none
  | _ => some "Value is not an object"

/-- Helper: the key holds a non-empty array. -/
def isNonEmptyArrField (fs : List (String × JSValue)) (k : String) : Bool :=
  match lookupField fs k with
  | some (.arr (_ :: _)) => true
  | _ => false

/-- Modelled from the spec: the Type Conformance Checker applied to
`INGEST_FILE_COLLECTION_FIELD_TYPEDECL` (not in src/): the `collection`
sub-object holds an ordered, non-empty `entries` sequence. -/
def conformsToCollectionField (v : JSValue) : Option String :=
  match v with
  | .obj fs =>
    if !isNonEmptyArrField fs "entries" then some "Field entries is missing or not a non-empty array"
    else none
  | _ => some "Value is not an object"

/-- Modelled from the spec: the Type Conformance Checker applied to
`INGEST_FILE_COLLECTION_ENTRY_TYPEDECL` (not in src/): a collection entry is
an object carrying a Transform Spec in its `transform` field, supplied either
as compact shorthand (string) or as a structured object. -/
def conformsToCollectionEntry (v : JSValue) : Option String :=
  match v with
  | .obj fs =>
    match lookupField fs "transform" with
    | some (.str _) => none
    | some (.obj _) => none
    | _ => some "Field transform is missing or not a string or an object"
  | _ => some "Value is not an object"

/-- Object branch of `assureUniformTransform`: conformance check then
pass-through. -/
def assureUniformTransformObj (t : JSValue) : ResErr JSValue :=
  match conformsToTransformDTO t with
  | some typeError => .err ("Transform field does not conform to type: " ++ typeError)
  | none => .ok t

/-- Embeds `assureUniformTransform` (src/unnamed/part_000): a transform field
is either compact shorthand (string), an object checked against
`TRANSFORM_DTO_TYPEDECL`, or a type error.  The `typeof` dispatch mirrors
JavaScript: `null` and arrays fall into the object branch. -/
def assureUniformTransform (maybeTransform : JSValue) : ResErr JSValue :=
  match maybeTransform with
  | .str s =>
    match readCompactTransformNotationRaw s with
    | .err e => .err e
    | .ok r => .ok r
  | .null => assureUniformTransformObj .null
  | .arr xs => assureUniformTransformObj (.arr xs)
  | .obj fs => assureUniformTransformObj (.obj fs)
  | _ => .err "Transform field is not compact CLI notation (string) or an object."

/-- Embeds the entry loop of `validateCollectionAssetEntry`
(src/unnamed/part_000, lines 125-136): each entry is conformance-checked,
then its transform is normalized and written back in place.  The first
failing entry short-circuits; the in-place writes are embedded by returning
the updated entry list on success. -/
def collectionEntriesLoop (entryNum : Nat) : List JSValue → Nat → Sum String (List JSValue)
  | [], _ => .inr []
  | source :: rest, i =>
    match conformsToCollectionEntry source with
    | some sourceTypeError =>
      .inl ("Type error in source nr: " ++ toString i ++ " in collection asset nr: "
            ++ toString entryNum ++ ": " ++ sourceTypeError)
    | none =>
      match assureUniformTransform (jsGet0 source "transform") with
      | .err e => .inl e
      | .ok t =>
        match collectionEntriesLoop entryNum rest (i + 1) with
        | .inl e => .inl e
        | .inr rest' => .inr (jsSetField source "transform" t :: rest')

/-- Embeds `validateCollectionAssetEntry` (src/unnamed/part_000): top-level
shape check, `collection` field shape check, then the entry loop.  Returns
the error (or `none`) together with the asset as mutated by the in-place
transform normalization. -/
def validateCollectionAssetEntry (asset : JSValue) (entryNum : Nat) : Option String × JSValue :=
  match conformsToCollectionAsset asset with
  | some topLevelTypeError =>
    (some ("Type error in collection asset nr " ++ toString entryNum ++ ": " ++ topLevelTypeError), asset)
  | none =>
    match conformsToCollectionField (jsGet0 asset "collection") with
    | some collectionFieldTypeError =>
      (some ("Type error in collection field on collection asset nr " ++ toString entryNum
             ++ ": " ++ collectionFieldTypeError), asset)
    | none =>
      match jsGet0 (jsGet0 asset "collection") "entries" with
      | .arr entries =>
        match collectionEntriesLoop entryNum entries 0 with
        | .inl e => (some e, asset)
        | .inr entries' =>
          (none, jsSetField asset "collection"
                   (jsSetField (jsGet0 asset "collection") "entries" (.arr entries')))
      | _ => (none, asset)

/-- Embeds `validateSingleAssetEntry` (src/unnamed/part_000): top-level shape
check, then the `single` sub-object's shape check. -/
def validateSingleAssetEntry (asset : JSValue) (entryNum : Nat) : Option String :=
  match conformsToSingleAsset asset with
  | some typeError => some ("Type error in single asset nr " ++ toString entryNum ++ ": " ++ typeError)
  | none =>
    match conformsToSingleField (jsGet0 asset "single") with
    | some e => some ("Type error in single field of single asset nr " ++ toString entryNum ++ ": " ++ e)
    | none => none

/-- Object branch of `assureUniformDSN`: conformance check, then the
`sslMode` default. -/
def assureUniformDSNObj (dsn : JSValue) : ResErr JSValue :=
  match conformsToDBDSN dsn with
  | some typeError => .err ("DSN object does not conform to expected type:\n\t" ++ typeError)
  | none =>
    if isMissing (jsGet0 dsn "sslMode") then .ok (jsSetField dsn "sslMode" (.str "disable"))
    else .ok dsn

/-- Embeds `assureUniformDSN` (src/unnamed/part_000, lines 155-174): a string
is parsed as compact shorthand; an object (in the JavaScript `typeof` sense,
so including `null` and arrays) is conformance-checked and then gets
`sslMode` defaulted to "disable" when absent or null (an in-place write,
embedded as a field update); anything else is an error. -/
def assureUniformDSN (dsn : JSValue) : ResErr JSValue :=
  match dsn with
  | .str s =>
    match readCompactDSNNotationRaw s with
    | .err e => .err e
    | .ok r => .ok r
  | .null => assureUniformDSNObj .null
  | .arr xs => assureUniformDSNObj (.arr xs)
  | .obj fs => assureUniformDSNObj (.obj fs)
  | _ => .err "DSN field is not compact CLI notation (\"host port, username password, dbName, sslMode\") or an object."

/-- Embeds the per-asset loop of `verifyIngestFile` (src/unnamed/part_000,
lines 198-221): `type` presence, `useCase` presence, then dispatch on the
`type` discriminant; unknown discriminants fail naming the index.  Property
reads on the loose entry value may throw, hence the `Except` layer; the
in-place entry mutation is embedded by returning the updated entry list. -/
def verifyAssetsLoop : List JSValue → Nat → Except String (Sum String (List JSValue))
  | [], _ => .ok (.inr [])
  | asset :: rest, i =>
    match jsGetField asset "type" with
    | .error t => .error t
    | .ok ty =>
      if isMissing ty then .ok (.inl ("No type field found in asset nr:" ++ toString i))
      else
        match jsGetField asset "useCase" with
        | .error t => .error t
        | .ok uc =>
          if isMissing uc then .ok (.inl ("No useCase field found in asset nr:" ++ toString i))
          else if jsEqStr ty "single" then
            match validateSingleAssetEntry asset i with
            | some e => .ok (.inl e)
            | none =>
              match verifyAssetsLoop rest (i + 1) with
              | .error t => .error t
              | .ok (.inl e) => .ok (.inl e)
              | .ok (.inr rest') => .ok (.inr (asset :: rest'))
          else if jsEqStr ty "collection" then
            match validateCollectionAssetEntry asset i with
            | (some e, _) => .ok (.inl e)
            | (none, asset') =>
              match verifyAssetsLoop rest (i + 1) with
              | .error t => .error t
              | .ok (.inl e) => .ok (.inl e)
              | .ok (.inr rest') => .ok (.inr (asset' :: rest'))
          else .ok (.inl ("Unknown asset type in asset nr:" ++ toString i))

/-- Continuation of `verifyIngestFile` after the DSN write-back: the `assets`
presence, array-shape and non-emptiness checks, then the asset loop. -/
def verifyIngestFileAfterDSN (rawFile : JSValue) : Except String (ResErr JSValue) :=
  match jsGetField rawFile "assets" with
  | .error t => .error t
  | .ok assets =>
    if isMissing assets then
      .ok (.err "No assets field and corresponding object found in ingest file.")
    else
      match assets with
      | .arr assetList =>
        if assetList.length = 0 then
          .ok (.err "Assets field in ingest file is not an array or is an empty array.")
        else
          match verifyAssetsLoop assetList 0 with
          | .error t => .error t
          | .ok (.inl e) => .ok (.err e)
          | .ok (.inr assetList') => .ok (.ok (jsSetField rawFile "assets" (.arr assetList')))
      | _ => .ok (.err "Assets field in ingest file is not an array or is an empty array.")

/-- Embeds `verifyIngestFile` (src/unnamed/part_000, lines 176-224) over the
`Except String` monad, whose `error` constructor models a thrown JavaScript
`TypeError`; a returned `ResErr` models the function's normal result.  The
in-place writes `rawFile.settings.dsn = ...` and the entry mutations are
embedded by rebuilding the document. -/
def verifyIngestFile (rawFile : JSValue) : Except String (ResErr JSValue) :=
  match jsGetField rawFile "settings" with
  | .error t => .error t
  | .ok settings =>
    if isMissing settings then
      .ok (.err "No settings field and corresponding object found in ingest file.")
    else
      match jsGetField settings "dsn" with
      | .error t => .error t
      | .ok dsn =>
        if isMissing dsn then .ok (.err "No dsn field found in ingest file under settings.")
        else
          match assureUniformDSN dsn with
          | .err e => .ok (.err e)
          | .ok d => verifyIngestFileAfterDSN (jsSetField rawFile "settings" (jsSetField settings "dsn" d))

/-- A sub-file declaration as described by the spec's data model: a locator
`path` and an inclusive identifier range.  The source field `end` is a Lean
keyword and is embedded here as `stop`. -/
structure SettingsSubFile where
  path : String
  start : Int
  stop : Int

/-- The ambient world consumed by `readIngestFile`: file existence, file
contents, the outcome of `JSON.parse` on a given text, and the working
directory that the source interpolates into its not-found message. -/
structure World where
  fileExists : String → Bool
  fileText : String → String
  parseJSON : String → Except String JSValue
  wd : String

/-- Embeds `readIngestFile` (src/unnamed/part_000, lines 230-245 and
330-345): existence check, then `JSON.parse` with the thrown syntax error
caught and wrapped. -/
def readIngestFile (w : World) (url : String) : ResErr JSValue :=
  if !w.fileExists url then
    .err ("File: \"" ++ url ++ "\" does not exist. WD: " ++ w.wd)
  else
    match w.parseJSON (w.fileText url) with
    | .error e => .err ("Failed to parse IngestFile: " ++ e)
    | .ok v => .ok v

/-- Structured range-partitioning error, naming the offending
declaration(s). -/
inductive RangeCheckError where
  | malformed : SettingsSubFile → RangeCheckError
  | overlap : SettingsSubFile → SettingsSubFile → RangeCheckError

/-- Modelled from the spec: rendering of a range error, self-locating by the
declarations' paths and bounds. -/
def rangeErrToString : RangeCheckError → String
  | .malformed d =>
    "Sub-file declaration " ++ d.path ++ " has a malformed range: start " ++ toString d.start
      ++ " is greater than end " ++ toString d.stop
  | .overlap a b =>
    "Sub-file declarations " ++ a.path ++ " and " ++ b.path ++ " declare overlapping ID ranges."

/-- Modelled from the spec: stable insertion of a declaration into a list
sorted by `start` (later-inserted declarations go after equal starts). -/
def insertByStart (d : SettingsSubFile) : List SettingsSubFile → List SettingsSubFile
  | [] => [d]
  | x :: xs => if x.start ≤ d.start then x :: insertByStart d xs else d :: x :: xs

/-- Modelled from the spec: sorting the declarations by `start`. -/
def sortByStart : List SettingsSubFile → List SettingsSubFile
  | [] => []
  | d :: ds => insertByStart d (sortByStart ds)

/-- Modelled from the spec: the adjacent-pair scan of the sorted declaration
list; `current.end >= next.start` is an overlap naming both declarations. -/
def adjacentScan : List SettingsSubFile → Option RangeCheckError
  | a :: b :: rest => if b.start ≤ a.stop then some (.overlap a b) else adjacentScan (b :: rest)
  | _ => none

/-- Modelled from the spec: `checkIDRangesOfSubFiles` (ingestFileVerifier.ts,
not in src/).  Well-formedness first (`start <= end`, the first violation
fails naming the offending declaration), then sort by `start` and scan
adjacent pairs for overlaps. -/
def checkIDRangesOfSubFiles (subFiles : List SettingsSubFile) : Option RangeCheckError :=
  match subFiles.find? (fun d => decide (d.stop < d.start)) with
  | some d => some (.malformed d)
  | none => adjacentScan (sortByStart subFiles)

/-- Structured identifier-assignment error naming the offending identifier
and the violated bound. -/
inductive IDAssignError where
  | outOfRange : Int → Int → IDAssignError

/-- Modelled from the spec: rendering of an identifier-assignment error,
naming the identifier and the violated bound. -/
def idErrToString : IDAssignError → String
  | .outOfRange id bound =>
    "Sub-file asset identifier " ++ toString id ++ " lies outside the declared range, violating bound "
      ++ toString bound

/-- Modelled from the spec: the asset identifiers found in a loaded
sub-manifest document (the numeric `id` fields of its asset entries). -/
def idsOfSubManifest (doc : JSValue) : List Int :=
  match jsGet0 doc "assets" with
  | .arr assets =>
    assets.filterMap (fun a =>
      match jsGet0 a "id" with
      | .num n => some n
      | _ => none)
  | _ => []

/-- Modelled from the spec: `verifySubFileIDAssignments`
(ingestFileVerifier.ts, not in src/).  Every asset identifier found in the
sub-manifest must lie within the declaration's inclusive `[start, end]`
range; the first identifier outside it is a hard failure naming the
identifier and the violated bound. -/
def verifySubFileIDAssignments (decl : SettingsSubFile) (doc : JSValue) : Option IDAssignError :=
  match (idsOfSubManifest doc).find? (fun id => decide (id < decl.start) || decide (decl.stop < id)) with
  | some id => some (.outOfRange id (if id < decl.start then decl.start else decl.stop))
  | none => none

/-- Modelled from the spec: per-entry validation of a sub-manifest's assets
(the loop inside `verifyIngestFileAssets`), total because the spec requires
error values rather than thrown control flow. -/
def subAssetsCheck : List JSValue → Nat → Option String
  | [], _ => none
  | asset :: rest, i =>
    if isMissing (jsGet0 asset "type") then some ("No type field found in asset nr:" ++ toString i)
    else if isMissing (jsGet0 asset "useCase") then some ("No useCase field found in asset nr:" ++ toString i)
    else if jsEqStr (jsGet0 asset "type") "single" then
      match validateSingleAssetEntry asset i with
      | some e => some e
      | none => subAssetsCheck rest (i + 1)
    else if jsEqStr (jsGet0 asset "type") "collection" then
      match validateCollectionAssetEntry asset i with
      | (some e, _) => some e
      | (none, _) => subAssetsCheck rest (i + 1)
    else some ("Unknown asset type in asset nr:" ++ toString i)

/-- Modelled from the spec: `verifyIngestFileAssets` (ingestFileVerifier.ts,
not in src/): validates the retrieved sub-manifest's asset list with the
per-entry validators; sub-manifests carry assets only. -/
def verifyIngestFileAssets (doc : JSValue) : Option String :=
  match jsGet0 doc "assets" with
  | .arr assets => subAssetsCheck assets 0
  | _ => some "No assets field and corresponding array found in sub-file."

/-- The external collaborator consumed by `handleSubFiles`: the Type
Conformance Checker applied to each sub-file declaration (the schema,
`INGEST_FILE_SETTINGS_TYPEDECL` in the source, is not in src/). -/
structure SubFileExternals where
  checkDecl : SettingsSubFile → Option String

/-- Embeds the per-declaration loop of `handleSubFiles`
(src/unnamed/part_000, lines 357-377): declaration type check, retrieval via
`readIngestFile`, sub-manifest asset validation, identifier-assignment check;
the first failure is returned to the caller (the retrieval error is returned
exactly as produced, the path appears only in the log). -/
def subFilesLoop (ext : SubFileExternals) (w : World) : List SettingsSubFile → ResErr (List JSValue)
  | [] => .ok []
  | d :: rest =>
    match ext.checkDecl d with
    | some typeCheck => .err ("Type error in sub-file declaration: " ++ typeCheck)
    | none =>
      match readIngestFile w d.path with
      | .err e => .err e
      | .ok result =>
        match verifyIngestFileAssets result with
        | some verifyError => .err verifyError
        | none =>
          match verifySubFileIDAssignments d result with
          | some idCheckError => .err (idErrToString idCheckError)
          | none =>
            match subFilesLoop ext w rest with
            | .err e => .err e
            | .ok rest' => .ok (result :: rest')

/-- Embeds `handleSubFiles` (src/unnamed/part_000, lines 348-379): absent or
empty declaration lists short-circuit to success, the range-partition check
runs once over all declarations, then the per-declaration loop. -/
def handleSubFiles (ext : SubFileExternals) (w : World) :
    Option (List SettingsSubFile) → ResErr (List JSValue)
  | none => .ok []
  | some subFiles =>
    if subFiles.length = 0 then .ok []
    else
      match checkIDRangesOfSubFiles subFiles with
      | some rangeCheckError => .err (rangeErrToString rangeCheckError)
      | none => subFilesLoop ext w subFiles

/-- The image MIME types distinguished by the LOD generator (the enum lives
in ts/metaTypes.ts, not in src/; only the SVG discriminant is compared
against in src/src/processing/lodGenerator.ts). -/
inductive ImageMIMEType where
  | jpeg | png | webp | gif | tiff | svg | bmp
deriving DecidableEq

/-- A binary blob as seen by the LOD generator: its byte size and its MIME
type string. -/
structure Blob where
  size : Nat
  type : String

/-- The `LODDTO` record from ts/types.ts as used by the generator. -/
structure LODDTO where
  detailLevel : Nat
  blob : Blob
  type : ImageMIMEType

/-- External collaborators of `generateLODs`: MIME-type resolution and
support checks (processing/typeChecker.ts and imageUtil.ts, not in src/) and
the `downscaleImage` image pipeline (I/O through the sharp library). -/
structure LODExternals where
  findConformingMIMEType : String → ResErr ImageMIMEType
  checkIfImageTypeIsSupported : ImageMIMEType → Bool
  downscaleImage : Blob → ResErr Blob

/-- Embeds the `while (currentBlob.size / 1000 > sizeThreshold)` loop of
`generateLODs` (src/src/processing/lodGenerator.ts, lines 44-56).  The
JavaScript real-valued comparison `size / 1000 > threshold` is embedded
exactly as `size > 1000 * threshold`; the unbounded loop is embedded with a
fuel parameter, exhaustion standing for a non-terminating run. -/
def lodLoop (ext : LODExternals) (sizeThreshold : Nat) (blobType : ImageMIMEType) :
    Nat → Blob → Nat → List LODDTO → ResErr (List LODDTO)
  | fuel, currentBlob, detailLevel, lodsGenerated =>
    if currentBlob.size > 1000 * sizeThreshold then
      match fuel with
      | 0 => .err "non-terminating downscaling loop"
      | fuel' + 1 =>
        match ext.downscaleImage currentBlob with
        | .err e => .err e
        | .ok result =>
          lodLoop ext sizeThreshold blobType fuel' result (detailLevel + 1)
            (lodsGenerated ++ [⟨detailLevel, result, blobType⟩])
    else .ok lodsGenerated

/-- Continuation of `generateLODs` once the blob type is resolved: support
check, empty-blob check, the SVG shortcut, the below-threshold shortcut,
then the downscaling loop. -/
def generateLODsAfterType (ext : LODExternals) (fuel : Nat) (blob : Blob) (sizeThreshold : Nat)
    (blobType : ImageMIMEType) : ResErr (List LODDTO) :=
  if !ext.checkIfImageTypeIsSupported blobType then
    .err ("Unsupported image type: " ++ blob.type)
  else if blob.size = 0 then .err "This blob is empty."
  else if blobType = .svg then .ok [⟨0, blob, blobType⟩]
  else
    if blob.size < 1000 * sizeThreshold then .ok [⟨0, blob, blobType⟩]
    else lodLoop ext sizeThreshold blobType fuel blob 1 [⟨0, blob, blobType⟩]

/-- Embeds `generateLODs` (src/src/processing/lodGenerator.ts, lines 16-58):
type resolution (with optional overwrite), then the checks and the loop.
`blob.size / 1000 < sizeThreshold` is embedded as
`blob.size < 1000 * sizeThreshold`. -/
def generateLODs (ext : LODExternals) (fuel : Nat) (blob : Blob) (sizeThreshold : Nat)
    (typeOverwrite : Option ImageMIMEType) : ResErr (List LODDTO) :=
  match (match typeOverwrite with
         | some t => ResErr.ok t
         | none => ext.findConformingMIMEType blob.type) with
  | .err e => .err e
  | .ok blobType => generateLODsAfterType ext fuel blob sizeThreshold blobType

/-! Basic lemmas about the JavaScript value helpers. -/

theorem lookupField_cons_self (k : String) (v : JSValue) (fs : List (String × JSValue)) :
    lookupField ((k, v) :: fs) k = some v := by
  simp [lookupField]

theorem lookupField_cons_ne (k' k : String) (v : JSValue) (fs : List (String × JSValue))
    (h : k' ≠ k) : lookupField ((k', v) :: fs) k = lookupField fs k := by
  simp [lookupField, h]

theorem lookupField_setFields_self (fs : List (String × JSValue)) (k : String) (v : JSValue) :
    lookupField (setFields fs k v) k = some v := by
  induction fs with
  | nil => simp [setFields, lookupField]
  | cons p rest ih =>
    obtain ⟨k', v'⟩ := p
    by_cases h : k' = k
    · subst h; simp [setFields, lookupField]
    · simp [setFields, lookupField, h, ih]

theorem lookupField_setFields_ne (fs : List (String × JSValue)) (k k' : String)
    (v : JSValue) (h : k' ≠ k) : lookupField (setFields fs k v) k' = lookupField fs k' := by
  induction fs with
  | nil => simp [setFields, lookupField, Ne.symm h]
  | cons p rest ih =>
    obtain ⟨k₀, v₀⟩ := p
    by_cases h₀ : k₀ = k
    · subst h₀
      by_cases h₁ : k₀ = k'
      · exact absurd h₁.symm h
      · simp [setFields, lookupField, h₁, Ne.symm h]
    · by_cases h₁ : k₀ = k'
      · subst h₁; simp [setFields, lookupField, h₀]
      · simp [setFields, lookupField, h₀, h₁, ih]

theorem jsGet0_obj (fs : List (String × JSValue)) (k : String) :
    jsGet0 (.obj fs) k = (lookupField fs k).getD .undefined := rfl

theorem jsGetField_of_not_missing (v : JSValue) (k : String) (h : isMissing v = false) :
    jsGetField v k = .ok (jsGet0 v k) := by
  cases v <;> simp_all [isMissing, jsGetField]

theorem jsGet0_not_missing_obj (v : JSValue) (k : String)
    (h : isMissing (jsGet0 v k) = false) : ∃ fs, v = .obj fs := by
  cases v <;> simp_all [jsGet0, isMissing]

theorem isMissing_jsSetField (v : JSValue) (k : String) (x : JSValue)
    (h : isMissing v = false) : isMissing (jsSetField v k x) = false := by
  cases v <;> simp_all [jsSetField, isMissing]

theorem jsGet0_jsSetField_ne (v : JSValue) (k k' : String) (x : JSValue) (h : k' ≠ k) :
    jsGet0 (jsSetField v k x) k' = jsGet0 v k' := by
  cases v with
  | obj fs => simp [jsSetField, jsGet0, lookupField_setFields_ne fs k k' x h]
  | _ => rfl

theorem jsGet0_jsSetField_self (fs : List (String × JSValue)) (k : String) (x : JSValue) :
    jsGet0 (jsSetField (.obj fs) k x) k = x := by
  simp [jsSetField, jsGet0, lookupField_setFields_self]

/-! C9.  The spec claims `verifyIngestFile` returns a one-sided result/error
pair for every parse result and never throws; the code throws a `TypeError`
on the parse result `null` (JSON text "null") because `rawFile.settings` is
read before any nullishness guard on `rawFile` itself. -/

/-- C9: evaluating the embedded `verifyIngestFile` at the parse result
`null` reaches the thrown-exception side of the embedding (reading
`settings` of `null`), contradicting the claim that every input yields a
returned result/error pair and no throw. -/
theorem c9_verifyIngestFile_throws_on_null :
    verifyIngestFile .null
      = .error "TypeError: Cannot read properties of null (reading 'settings')" := rfl

/-! C1.  Missing `settings` always yields its structural error, but a missing
`assets` field is only reported after the whole settings/DSN stage has
succeeded: a manifest with a null `assets` field and an invalid `dsn` fails
with the DSN error, which names neither missing field, refuting the claim's
"regardless of the contents of any other field". -/

/-- C1 counterexample: a manifest whose `assets` field is null but whose
`settings.dsn` is a number returns the DSN notation error, not a structural
error naming the missing `assets` field, so the claim as stated is false. -/
theorem c1_missing_assets_preempted_cex :
    verifyIngestFile (.obj [("settings", .obj [("dsn", .num 42)]), ("assets", .null)])
      = .ok (.err "DSN field is not compact CLI notation (\"host port, username password, dbName, sslMode\") or an object.")
    ∧ "DSN field is not compact CLI notation (\"host port, username password, dbName, sslMode\") or an object."
        ≠ "No assets field and corresponding object found in ingest file."
    ∧ "DSN field is not compact CLI notation (\"host port, username password, dbName, sslMode\") or an object."
        ≠ "No settings field and corresponding object found in ingest file." :=
  ⟨rfl, by decide, by decide⟩

/-- C1 (amended): for every non-nullish manifest document, a missing or null
`settings` field yields the structural error naming `settings` (regardless
of any other field), and — provided the settings stage succeeds (`dsn`
present and normalizing) — a missing or null `assets` field yields the
structural error naming `assets`; in both cases the embedded result is the
error side, so no verified output is produced. -/
theorem c1_missing_field_errors :
    (∀ rf : JSValue, isMissing rf = false → isMissing (jsGet0 rf "settings") = true →
      verifyIngestFile rf
        = .ok (.err "No settings field and corresponding object found in ingest file."))
    ∧ (∀ (rf : JSValue) (d : JSValue), isMissing rf = false →
        isMissing (jsGet0 rf "settings") = false →
        isMissing (jsGet0 (jsGet0 rf "settings") "dsn") = false →
        assureUniformDSN (jsGet0 (jsGet0 rf "settings") "dsn") = .ok d →
        isMissing (jsGet0 rf "assets") = true →
        verifyIngestFile rf
          = .ok (.err "No assets field and corresponding object found in ingest file.")) := by
  constructor
  · intro rf h1 h2
    simp [verifyIngestFile, jsGetField_of_not_missing _ _ h1, h2]
  · intro rf d h1 h2 h3 h4 h5
    obtain ⟨fs, rfl⟩ := jsGet0_not_missing_obj rf "settings" h2
    have hset : isMissing (jsSetField (JSValue.obj fs) "settings"
        (jsSetField (jsGet0 (JSValue.obj fs) "settings") "dsn" d)) = false := rfl
    simp [verifyIngestFile, verifyIngestFileAfterDSN, jsGetField_of_not_missing _ _ h1,
      h2, h3, h4, h5, jsGetField_of_not_missing _ _ h2, jsGetField_of_not_missing _ _ hset,
      jsGet0_jsSetField_ne _ "settings" "assets" _ (by decide)]

/-- C1 witness: the amended theorem applied at two concrete manifests, one
with `settings` absent and one with a valid object DSN but `assets` absent. -/
theorem c1_missing_field_errors_witness :
    verifyIngestFile (.obj [("assets", .arr [.obj []])])
      = .ok (.err "No settings field and corresponding object found in ingest file.")
    ∧ verifyIngestFile (.obj [("settings", .obj [("dsn",
        .obj [("host", .str "h"), ("port", .num 1), ("username", .str "u"),
              ("password", .str "p"), ("dbName", .str "db"), ("sslMode", .str "disable")])])])
      = .ok (.err "No assets field and corresponding object found in ingest file.") :=
  ⟨c1_missing_field_errors.1 _ rfl rfl,
   c1_missing_field_errors.2 _
     (.obj [("host", .str "h"), ("port", .num 1), ("username", .str "u"),
            ("password", .str "p"), ("dbName", .str "db"), ("sslMode", .str "disable")])
     rfl rfl rfl rfl rfl⟩

/-! C2.  After `assureUniformDSN` on a conforming object, `sslMode` is always
present and other fields are unchanged, but the claim's biconditional
("sslMode equals \"disable\" exactly when it was absent or null") fails: an
input that already carries `sslMode: "disable"` explicitly passes the check
and keeps that value even though it was neither absent nor null. -/

/-- C2 counterexample: a conforming DSN object with an explicit
`sslMode: "disable"` is returned unchanged, so its result has `sslMode`
equal to "disable" although the input's `sslMode` was present and non-null,
refuting the claimed "exactly when". -/
theorem c2_sslMode_explicit_disable_cex :
    conformsToDBDSN (.obj [("host", .str "localhost"), ("port", .num 5432),
      ("username", .str "admin"), ("password", .str "secret"),
      ("dbName", .str "assetsdb"), ("sslMode", .str "disable")]) = none
    ∧ assureUniformDSN (.obj [("host", .str "localhost"), ("port", .num 5432),
        ("username", .str "admin"), ("password", .str "secret"),
        ("dbName", .str "assetsdb"), ("sslMode", .str "disable")])
      = .ok (.obj [("host", .str "localhost"), ("port", .num 5432),
        ("username", .str "admin"), ("password", .str "secret"),
        ("dbName", .str "assetsdb"), ("sslMode", .str "disable")])
    ∧ jsGet0 (.obj [("host", .str "localhost"), ("port", .num 5432),
        ("username", .str "admin"), ("password", .str "secret"),
        ("dbName", .str "assetsdb"), ("sslMode", .str "disable")]) "sslMode" = .str "disable"
    ∧ isMissing (jsGet0 (.obj [("host", .str "localhost"), ("port", .num 5432),
        ("username", .str "admin"), ("password", .str "secret"),
        ("dbName", .str "assetsdb"), ("sslMode", .str "disable")]) "sslMode") = false :=
  ⟨rfl, rfl, rfl, rfl⟩

/-- C2 (amended): for every DSN object passing the schema conformance check,
`assureUniformDSN` succeeds; the result always has `sslMode` present as a
string; if the input's `sslMode` was absent or null the result's `sslMode`
is "disable" and every other field is unchanged; and if the input's
`sslMode` was present and non-null the object is returned entirely
unchanged. -/
theorem c2_sslMode_default (fs : List (String × JSValue))
    (h : conformsToDBDSN (.obj fs) = none) :
    ∃ fs', assureUniformDSN (.obj fs) = .ok (.obj fs')
      ∧ (∃ s, lookupField fs' "sslMode" = some (.str s))
      ∧ (isMissing (jsGet0 (.obj fs) "sslMode") = true →
          lookupField fs' "sslMode" = some (.str "disable"))
      ∧ (isMissing (jsGet0 (.obj fs) "sslMode") = false → fs' = fs)
      ∧ (∀ k, k ≠ "sslMode" → lookupField fs' k = lookupField fs k) := by
  have hssl : isOptStrField fs "sslMode" = true := by
    simp only [conformsToDBDSN] at h
    split_ifs at h
    simp_all
  by_cases hm : isMissing (jsGet0 (.obj fs) "sslMode") = true
  · refine ⟨setFields fs "sslMode" (.str "disable"), ?_, ⟨"disable", ?_⟩, fun _ => ?_,
      fun hf => absurd hm (by simp [hf]), fun k hk => ?_⟩
    · simp [assureUniformDSN, assureUniformDSNObj, h, hm, jsSetField]
    · exact lookupField_setFields_self fs "sslMode" (.str "disable")
    · exact lookupField_setFields_self fs "sslMode" (.str "disable")
    · exact lookupField_setFields_ne fs "sslMode" k (.str "disable") hk
  · have hm' : isMissing (jsGet0 (.obj fs) "sslMode") = false := by
      cases hx : isMissing (jsGet0 (.obj fs) "sslMode") <;> simp_all
    refine ⟨fs, ?_, ?_, fun hf => absurd hf hm, fun _ => rfl, fun k _ => rfl⟩
    · simp [assureUniformDSN, assureUniformDSNObj, h, hm']
    · cases hl : lookupField fs "sslMode" with
      | none => exfalso; simp [jsGet0, hl, isMissing] at hm'
      | some v => cases v <;> simp_all [isOptStrField, jsGet0, isMissing]

/-- C2 witness: the amended theorem applied to a concrete conforming DSN
object without `sslMode`. -/
theorem c2_sslMode_default_witness :
    conformsToDBDSN (.obj [("host", .str "localhost"), ("port", .num 5432),
      ("username", .str "admin"), ("password", .str "secret"),
      ("dbName", .str "assetsdb")]) = none
    ∧ ∃ fs', assureUniformDSN (.obj [("host", .str "localhost"), ("port", .num 5432),
        ("username", .str "admin"), ("password", .str "secret"),
        ("dbName", .str "assetsdb")]) = .ok (.obj fs')
      ∧ (∃ s, lookupField fs' "sslMode" = some (.str s))
      ∧ (isMissing (jsGet0 (.obj [("host", .str "localhost"), ("port", .num 5432),
          ("username", .str "admin"), ("password", .str "secret"),
          ("dbName", .str "assetsdb")]) "sslMode") = true →
          lookupField fs' "sslMode" = some (.str "disable"))
      ∧ (isMissing (jsGet0 (.obj [("host", .str "localhost"), ("port", .num 5432),
          ("username", .str "admin"), ("password", .str "secret"),
          ("dbName", .str "assetsdb")]) "sslMode") = false →
          fs' = [("host", .str "localhost"), ("port", .num 5432),
            ("username", .str "admin"), ("password", .str "secret"),
            ("dbName", .str "assetsdb")])
      ∧ (∀ k, k ≠ "sslMode" → lookupField fs' k
          = lookupField [("host", .str "localhost"), ("port", .num 5432),
              ("username", .str "admin"), ("password", .str "secret"),
              ("dbName", .str "assetsdb")] k) :=
  ⟨rfl, c2_sslMode_default _ rfl⟩

/-! C7.  Idempotence of DSN normalization. -/

theorem isStrField_setFields_ne (fs : List (String × JSValue)) (k k' : String) (v : JSValue)
    (h : k' ≠ k) : isStrField (setFields fs k v) k' = isStrField fs k' := by
  simp [isStrField, lookupField_setFields_ne fs k k' v h]

theorem isNumField_setFields_ne (fs : List (String × JSValue)) (k k' : String) (v : JSValue)
    (h : k' ≠ k) : isNumField (setFields fs k v) k' = isNumField fs k' := by
  simp [isNumField, lookupField_setFields_ne fs k k' v h]

theorem isOptStrField_setFields_str_self (fs : List (String × JSValue)) (k s : String) :
    isOptStrField (setFields fs k (.str s)) k = true := by
  simp [isOptStrField, lookupField_setFields_self]

theorem conformsToDBDSN_set_sslMode (fs : List (String × JSValue))
    (h : conformsToDBDSN (.obj fs) = none) :
    conformsToDBDSN (.obj (setFields fs "sslMode" (.str "disable"))) = none := by
  simp only [conformsToDBDSN] at h ⊢
  rw [isStrField_setFields_ne fs "sslMode" "host" _ (by decide),
      isNumField_setFields_ne fs "sslMode" "port" _ (by decide),
      isStrField_setFields_ne fs "sslMode" "username" _ (by decide),
      isStrField_setFields_ne fs "sslMode" "password" _ (by decide),
      isStrField_setFields_ne fs "sslMode" "dbName" _ (by decide),
      isOptStrField_setFields_str_self fs "sslMode" "disable"]
  split_ifs at h ⊢ <;> simp_all

theorem readDSNParts_ok (hp up dn ssl : List Char) (v : JSValue)
    (h : readDSNParts hp up dn ssl = .ok v) :
    ∃ host port username password,
      v = .obj [("host", .str host), ("port", .num port), ("username", .str username),
                ("password", .str password), ("dbName", .str (String.mk dn)),
                ("sslMode", .str (String.mk ssl))] := by
  unfold readDSNParts at h
  split at h
  · split at h
    · exact ⟨_, _, _, _, (ResErr.ok.inj h).symm⟩
    · exact absurd h (by simp)
  · exact absurd h (by simp)

theorem conformsToDBDSN_canonical (host username password dbName ssl : String) (port : Int) :
    conformsToDBDSN (.obj [("host", .str host), ("port", .num port),
      ("username", .str username), ("password", .str password),
      ("dbName", .str dbName), ("sslMode", .str ssl)]) = none := rfl

theorem jsGet0_dsnCanonical_sslMode (host username password dbName ssl : String) (port : Int) :
    jsGet0 (.obj [("host", .str host), ("port", .num port), ("username", .str username),
      ("password", .str password), ("dbName", .str dbName), ("sslMode", .str ssl)]) "sslMode"
      = .str ssl := by
  simp only [jsGet0]
  rw [lookupField_cons_ne _ _ _ _ (by decide), lookupField_cons_ne _ _ _ _ (by decide),
      lookupField_cons_ne _ _ _ _ (by decide), lookupField_cons_ne _ _ _ _ (by decide),
      lookupField_cons_ne _ _ _ _ (by decide), lookupField_cons_self]
  rfl

theorem readCompactDSNNotationRaw_ok (s : String) (v : JSValue)
    (h : readCompactDSNNotationRaw s = .ok v) :
    ∃ host port username password dbName ssl,
      v = .obj [("host", .str host), ("port", .num port), ("username", .str username),
                ("password", .str password), ("dbName", .str dbName), ("sslMode", .str ssl)] := by
  unfold readCompactDSNNotationRaw at h
  split at h
  · obtain ⟨host, port, username, password, hv⟩ := readDSNParts_ok _ _ _ _ _ h
    exact ⟨host, port, username, password, _, _, hv⟩
  · obtain ⟨host, port, username, password, hv⟩ := readDSNParts_ok _ _ _ _ _ h
    exact ⟨host, port, username, password, _, _, hv⟩
  · exact absurd h (by simp)

/-- C7: `assureUniformDSN` is idempotent: whenever it succeeds — whether the
input was compact shorthand (string) or an object — applying it again to the
returned canonical value succeeds and returns that same value. -/
theorem c7_assureUniformDSN_idempotent (dsn r : JSValue)
    (h : assureUniformDSN dsn = .ok r) : assureUniformDSN r = .ok r := by
  cases dsn with
  | str s =>
    simp only [assureUniformDSN] at h
    split at h
    · exact absurd h (by simp)
    · rename_i v hv
      obtain rfl : v = r := ResErr.ok.inj h
      obtain ⟨host, port, username, password, dbName, ssl, rfl⟩ :=
        readCompactDSNNotationRaw_ok s v hv
      simp [assureUniformDSN, assureUniformDSNObj, conformsToDBDSN_canonical,
        jsGet0_dsnCanonical_sslMode, isMissing]
  | obj fs =>
    have h' : assureUniformDSNObj (.obj fs) = .ok r := h
    unfold assureUniformDSNObj at h'
    split at h'
    · exact absurd h' (by simp)
    · rename_i hc
      by_cases hm : isMissing (jsGet0 (.obj fs) "sslMode") = true
      · rw [if_pos hm] at h'
        obtain rfl : r = jsSetField (.obj fs) "sslMode" (.str "disable") :=
          (ResErr.ok.inj h').symm
        show assureUniformDSN (.obj (setFields fs "sslMode" (.str "disable")))
          = .ok (.obj (setFields fs "sslMode" (.str "disable")))
        simp [assureUniformDSN, assureUniformDSNObj, conformsToDBDSN_set_sslMode fs hc,
          jsGet0, lookupField_setFields_self, isMissing]
      · rw [if_neg hm] at h'
        obtain rfl : r = .obj fs := (ResErr.ok.inj h').symm
        show assureUniformDSNObj (.obj fs) = .ok (.obj fs)
        unfold assureUniformDSNObj
        simp only [hc]
        rw [if_neg hm]
  | null =>
    exact absurd h (by simp [assureUniformDSN, assureUniformDSNObj, conformsToDBDSN])
  | arr xs =>
    exact absurd h (by simp [assureUniformDSN, assureUniformDSNObj, conformsToDBDSN])
  | undefined => exact absurd h (by simp [assureUniformDSN])
  | boolV b => exact absurd h (by simp [assureUniformDSN])
  | num n => exact absurd h (by simp [assureUniformDSN])

/-- C7 witness: idempotence at the compact shorthand of the spec's
end-to-end scenario 1; the theorem is applied to its concrete normalization
result. -/
theorem c7_assureUniformDSN_idempotent_witness :
    assureUniformDSN (.str "localhost 5432, admin secret, assetsdb, disable")
      = .ok (.obj [("host", .str "localhost"), ("port", .num 5432),
          ("username", .str "admin"), ("password", .str "secret"),
          ("dbName", .str "assetsdb"), ("sslMode", .str "disable")])
    ∧ assureUniformDSN (.obj [("host", .str "localhost"), ("port", .num 5432),
          ("username", .str "admin"), ("password", .str "secret"),
          ("dbName", .str "assetsdb"), ("sslMode", .str "disable")])
      = .ok (.obj [("host", .str "localhost"), ("port", .num 5432),
          ("username", .str "admin"), ("password", .str "secret"),
          ("dbName", .str "assetsdb"), ("sslMode", .str "disable")]) := by
  refine ⟨rfl, ?_⟩
  exact c7_assureUniformDSN_idempotent (.str "localhost 5432, admin secret, assetsdb, disable") _ rfl

/-! C5.  Unknown asset `type` discriminants.  The code checks `useCase`
presence before dispatching on `type`, so an entry with an unknown type but a
missing `useCase` fails with the useCase error, not the unknown-type error;
and entries are only reached after all earlier entries validate. -/

/-- Whether the `type` discriminant is one of the two known variants. -/
def isKnownType (v : JSValue) : Bool :=
  jsEqStr v "single" || jsEqStr v "collection"

/-- Whether one asset entry passes the per-entry validation of the asset
loop (this is index-independent: the index only occurs in error messages). -/
def assetPasses (a : JSValue) : Bool :=
  !isMissing a && !isMissing (jsGet0 a "type") && !isMissing (jsGet0 a "useCase") &&
    (if jsEqStr (jsGet0 a "type") "single" then (validateSingleAssetEntry a 0).isNone
     else if jsEqStr (jsGet0 a "type") "collection" then (validateCollectionAssetEntry a 0).1.isNone
     else false)

theorem validateSingleAssetEntry_isNone (a : JSValue) (i : Nat) :
    (validateSingleAssetEntry a i).isNone = (validateSingleAssetEntry a 0).isNone := by
  cases hc : conformsToSingleAsset a <;> cases hf : conformsToSingleField (jsGet0 a "single") <;>
    simp [validateSingleAssetEntry, hc, hf]

theorem collectionEntriesLoop_inr_indep (n n' : Nat) (l : List JSValue) (j j' : Nat)
    (l' : List JSValue) (h : collectionEntriesLoop n l j = .inr l') :
    collectionEntriesLoop n' l j' = .inr l' := by
  induction l generalizing j j' l' with
  | nil =>
    simp only [collectionEntriesLoop] at h ⊢
    exact h
  | cons source rest ih =>
    simp only [collectionEntriesLoop] at h ⊢
    cases hc : conformsToCollectionEntry source with
    | some e => rw [hc] at h; exact absurd h (by simp)
    | none =>
      rw [hc] at h
      cases ht : assureUniformTransform (jsGet0 source "transform") with
      | err e => rw [ht] at h; exact absurd h (by simp)
      | ok t =>
        rw [ht] at h
        cases hr : collectionEntriesLoop n rest (j + 1) with
        | inl e => rw [hr] at h; exact absurd h (by simp)
        | inr rest' =>
          rw [hr] at h
          rw [ih (j + 1) (j' + 1) rest' hr]
          exact h

theorem validateCollectionAssetEntry_fst_isNone (a : JSValue) (i : Nat) :
    (validateCollectionAssetEntry a i).1.isNone = (validateCollectionAssetEntry a 0).1.isNone := by
  cases hc : conformsToCollectionAsset a with
  | some e => simp [validateCollectionAssetEntry, hc]
  | none =>
    cases hf : conformsToCollectionField (jsGet0 a "collection") with
    | some e => simp [validateCollectionAssetEntry, hc, hf]
    | none =>
      cases he : jsGet0 (jsGet0 a "collection") "entries" with
      | arr entries =>
        cases hi : collectionEntriesLoop i entries 0 with
        | inl e =>
          cases h0 : collectionEntriesLoop 0 entries 0 with
          | inl e0 => simp [validateCollectionAssetEntry, hc, hf, he, hi, h0]
          | inr l' =>
            have := collectionEntriesLoop_inr_indep 0 i entries 0 0 l' h0
            rw [this] at hi
            exact absurd hi (by simp)
        | inr l' =>
          have h0 := collectionEntriesLoop_inr_indep i 0 entries 0 0 l' hi
          simp [validateCollectionAssetEntry, hc, hf, he, hi, h0]
      | _ => simp_all [validateCollectionAssetEntry, hc, hf, he]

theorem verifyAssetsLoop_unknown_type (pre : List JSValue) (x : JSValue) (rest : List JSValue)
    (i : Nat)
    (hpre : ∀ a ∈ pre, assetPasses a = true)
    (hx1 : isMissing x = false)
    (hx2 : isMissing (jsGet0 x "type") = false)
    (hx3 : isMissing (jsGet0 x "useCase") = false)
    (hx4 : jsEqStr (jsGet0 x "type") "single" = false)
    (hx5 : jsEqStr (jsGet0 x "type") "collection" = false) :
    verifyAssetsLoop (pre ++ x :: rest) i
      = .ok (.inl ("Unknown asset type in asset nr:" ++ toString (i + pre.length))) := by
  induction pre generalizing i with
  | nil =>
    simp only [List.nil_append, List.length_nil, Nat.add_zero]
    simp [verifyAssetsLoop, jsGetField_of_not_missing _ _ hx1, hx2, hx3, hx4, hx5]
  | cons a pre ih =>
    have ha := hpre a (by simp)
    simp only [assetPasses, Bool.and_eq_true, Bool.not_eq_true'] at ha
    obtain ⟨⟨⟨ha1, ha2⟩, ha3⟩, ha4⟩ := ha
    have harith : (i + 1) + pre.length = i + (a :: pre).length := by
      simp [List.length_cons]; omega
    have hrec := ih (i + 1) (fun b hb => hpre b (by simp [hb]))
    rw [harith] at hrec
    by_cases hsingle : jsEqStr (jsGet0 a "type") "single" = true
    · rw [if_pos hsingle] at ha4
      have hnone : validateSingleAssetEntry a i = none := by
        have := validateSingleAssetEntry_isNone a i
        rw [ha4] at this
        exact Option.isNone_iff_eq_none.mp this
      simp [verifyAssetsLoop, jsGetField_of_not_missing _ _ ha1, ha2, ha3, hsingle,
        hnone, hrec]
    · rw [if_neg hsingle] at ha4
      by_cases hcoll : jsEqStr (jsGet0 a "type") "collection" = true
      · rw [if_pos hcoll] at ha4
        have hnone : (validateCollectionAssetEntry a i).1 = none := by
          have := validateCollectionAssetEntry_fst_isNone a i
          rw [ha4] at this
          exact Option.isNone_iff_eq_none.mp this
        cases hv : validateCollectionAssetEntry a i with
        | mk fst snd =>
          rw [hv] at hnone
          subst hnone
          have hsingle' : jsEqStr (jsGet0 a "type") "single" = false := by
            cases hx : jsEqStr (jsGet0 a "type") "single"
            · rfl
            · exact absurd hx hsingle
          simp [verifyAssetsLoop, jsGetField_of_not_missing _ _ ha1, ha2, ha3, hsingle',
            hcoll, hv, hrec]
      · rw [if_neg hcoll] at ha4
        exact absurd ha4 (by simp)

/-- C5 counterexample: a manifest whose only asset has the unknown type
"weird" but no `useCase` field fails with the useCase structural error, not
with an unknown-type error naming the entry's index, so the claim as stated
is false. -/
theorem c5_unknown_type_preempted_cex :
    verifyIngestFile (.obj [("settings", .obj [("dsn",
        .obj [("host", .str "h"), ("port", .num 1), ("username", .str "u"),
              ("password", .str "p"), ("dbName", .str "db"), ("sslMode", .str "disable")])]),
      ("assets", .arr [.obj [("type", .str "weird")]])])
      = .ok (.err "No useCase field found in asset nr:0")
    ∧ isKnownType (.str "weird") = false
    ∧ "No useCase field found in asset nr:0" ≠ "Unknown asset type in asset nr:0" :=
  ⟨rfl, rfl, by decide⟩

/-- C5 (amended): for every manifest whose settings stage succeeds, and for
every asset entry reached by validation (all earlier entries pass) whose
`type` is present but is neither "single" nor "collection" and whose
`useCase` is present, `verifyIngestFile` fails with the unknown-type error
naming that entry's index; the entry is not skipped or defaulted. -/
theorem c5_unknown_type_error (rf d : JSValue) (pre : List JSValue) (x : JSValue)
    (rest : List JSValue)
    (h1 : isMissing rf = false)
    (h2 : isMissing (jsGet0 rf "settings") = false)
    (h3 : isMissing (jsGet0 (jsGet0 rf "settings") "dsn") = false)
    (h4 : assureUniformDSN (jsGet0 (jsGet0 rf "settings") "dsn") = .ok d)
    (h5 : jsGet0 rf "assets" = .arr (pre ++ x :: rest))
    (hpre : ∀ a ∈ pre, assetPasses a = true)
    (hx1 : isMissing x = false)
    (hx2 : isMissing (jsGet0 x "type") = false)
    (hx3 : isMissing (jsGet0 x "useCase") = false)
    (hx4 : isKnownType (jsGet0 x "type") = false) :
    verifyIngestFile rf
      = .ok (.err ("Unknown asset type in asset nr:" ++ toString pre.length)) := by
  obtain ⟨fs, rfl⟩ := jsGet0_not_missing_obj rf "settings" h2
  simp only [isKnownType, Bool.or_eq_false_iff] at hx4
  obtain ⟨hx4a, hx4b⟩ := hx4
  have hset : isMissing (jsSetField (JSValue.obj fs) "settings"
      (jsSetField (jsGet0 (JSValue.obj fs) "settings") "dsn" d)) = false := rfl
  have hassets : jsGet0 (jsSetField (JSValue.obj fs) "settings"
      (jsSetField (jsGet0 (JSValue.obj fs) "settings") "dsn" d)) "assets"
      = .arr (pre ++ x :: rest) := by
    rw [jsGet0_jsSetField_ne _ "settings" "assets" _ (by decide), h5]
  have hloop := verifyAssetsLoop_unknown_type pre x rest 0 hpre hx1 hx2 hx3 hx4a hx4b
  rw [Nat.zero_add] at hloop
  have harrmiss : isMissing (JSValue.arr (pre ++ x :: rest)) = false := rfl
  simp [verifyIngestFile, verifyIngestFileAfterDSN, jsGetField_of_not_missing _ _ h1,
    h2, h3, h4, jsGetField_of_not_missing _ _ h2, jsGetField_of_not_missing _ _ hset,
    hassets, harrmiss, hloop]

/-- C5 witness: the amended theorem applied at a concrete manifest whose
second asset entry carries the unknown type "weird" with a `useCase`
present, after a valid single asset. -/
theorem c5_unknown_type_error_witness :
    verifyIngestFile (.obj [("settings", .obj [("dsn",
        .obj [("host", .str "h"), ("port", .num 1), ("username", .str "u"),
              ("password", .str "p"), ("dbName", .str "db"), ("sslMode", .str "disable")])]),
      ("assets", .arr
        [.obj [("type", .str "single"), ("useCase", .str "icon"),
               ("single", .obj [("source", .str "s"), ("id", .num 1)])],
         .obj [("type", .str "weird"), ("useCase", .str "icon")]])])
      = .ok (.err "Unknown asset type in asset nr:1") := by
  have := c5_unknown_type_error
    (.obj [("settings", .obj [("dsn",
        .obj [("host", .str "h"), ("port", .num 1), ("username", .str "u"),
              ("password", .str "p"), ("dbName", .str "db"), ("sslMode", .str "disable")])]),
      ("assets", .arr
        [.obj [("type", .str "single"), ("useCase", .str "icon"),
               ("single", .obj [("source", .str "s"), ("id", .num 1)])],
         .obj [("type", .str "weird"), ("useCase", .str "icon")]])])
    (.obj [("host", .str "h"), ("port", .num 1), ("username", .str "u"),
           ("password", .str "p"), ("dbName", .str "db"), ("sslMode", .str "disable")])
    [.obj [("type", .str "single"), ("useCase", .str "icon"),
           ("single", .obj [("source", .str "s"), ("id", .num 1)])]]
    (.obj [("type", .str "weird"), ("useCase", .str "icon")])
    []
    rfl rfl rfl rfl rfl
    (fun a ha => by rw [List.mem_singleton.mp ha]; rfl)
    rfl rfl rfl rfl
  exact this

/-! C6.  Collection-entry validation short-circuits at the first failing
entry, and shape errors name both the owning asset's index and the entry's
index — but a transform-normalization failure is returned verbatim
(src/unnamed/part_000 line 133 returns `uniformTransformAttempt.error`
without adding any index), so not every entry-level error names both. -/

/-- Whether one collection entry passes the entry loop's two checks. -/
def entryPasses (s : JSValue) : Bool :=
  match conformsToCollectionEntry s with
  | some _ => false
  | none =>
    match assureUniformTransform (jsGet0 s "transform") with
    | .err _ => false
    | .ok _ => true

/-- The error the entry loop produces for the entry `s` at position `j` of
the collection asset at index `n` (none when the entry passes). -/
def entryErrorAt (n j : Nat) (s : JSValue) : Option String :=
  match conformsToCollectionEntry s with
  | some e =>
    some ("Type error in source nr: " ++ toString j ++ " in collection asset nr: "
          ++ toString n ++ ": " ++ e)
  | none =>
    match assureUniformTransform (jsGet0 s "transform") with
    | .err e => some e
    | .ok _ => none

/-- C6 counterexample: a collection asset whose single entry's transform is
the malformed shorthand "garbage" yields the bare transform parse error;
evaluating `validateCollectionAssetEntry` at two different owning-asset
indices returns the identical error string, so the error cannot name the
owning asset's index (nor the entry's), refuting "always names both". -/
theorem c6_transform_error_unprefixed_cex :
    (validateCollectionAssetEntry (.obj [("type", .str "collection"), ("useCase", .str "icon"),
        ("name", .str "c"), ("collection", .obj [("entries",
          .arr [.obj [("transform", .str "garbage")]])])]) 3).1
      = some "Malformed compact transform shorthand: wrong field count."
    ∧ (validateCollectionAssetEntry (.obj [("type", .str "collection"), ("useCase", .str "icon"),
        ("name", .str "c"), ("collection", .obj [("entries",
          .arr [.obj [("transform", .str "garbage")]])])]) 7).1
      = some "Malformed compact transform shorthand: wrong field count." :=
  ⟨rfl, rfl⟩

/-- C6 (amended): the entry loop stops at the first failing entry — for any
entries after it the result is unchanged and they are neither validated nor
normalized; a shape failure's error names both the entry's index and the
owning asset's index, while a transform-normalization failure's error is
returned verbatim, naming neither. -/
theorem c6_collection_entry_errors :
    (∀ (n j : Nat) (src : JSValue) (t : String), conformsToCollectionEntry src = some t →
       entryErrorAt n j src
         = some ("Type error in source nr: " ++ toString j ++ " in collection asset nr: "
             ++ toString n ++ ": " ++ t))
    ∧ (∀ (n j : Nat) (src : JSValue) (e : String), conformsToCollectionEntry src = none →
        assureUniformTransform (jsGet0 src "transform") = .err e →
        entryErrorAt n j src = some e)
    ∧ (∀ (n : Nat) (pre : List JSValue) (src : JSValue) (tail : List JSValue) (j : Nat),
        (∀ s ∈ pre, entryPasses s = true) → entryPasses src = false →
        ∃ e, entryErrorAt n (j + pre.length) src = some e
          ∧ collectionEntriesLoop n (pre ++ src :: tail) j = .inl e)
    ∧ (∀ (asset : JSValue) (n : Nat) (pre : List JSValue) (src : JSValue) (tail : List JSValue),
        conformsToCollectionAsset asset = none →
        conformsToCollectionField (jsGet0 asset "collection") = none →
        jsGet0 (jsGet0 asset "collection") "entries" = .arr (pre ++ src :: tail) →
        (∀ s ∈ pre, entryPasses s = true) → entryPasses src = false →
        ∃ e, entryErrorAt n pre.length src = some e
          ∧ (validateCollectionAssetEntry asset n).1 = some e) := by
  have part3 : ∀ (n : Nat) (pre : List JSValue) (src : JSValue) (tail : List JSValue) (j : Nat),
      (∀ s ∈ pre, entryPasses s = true) → entryPasses src = false →
      ∃ e, entryErrorAt n (j + pre.length) src = some e
        ∧ collectionEntriesLoop n (pre ++ src :: tail) j = .inl e := by
    intro n pre src tail
    induction pre with
    | nil =>
      intro j _ hsrc
      simp only [List.nil_append, List.length_nil, Nat.add_zero]
      cases hc : conformsToCollectionEntry src with
      | some t =>
        exact ⟨"Type error in source nr: " ++ toString j ++ " in collection asset nr: "
          ++ toString n ++ ": " ++ t, by simp [entryErrorAt, hc], by simp [collectionEntriesLoop, hc]⟩
      | none =>
        cases ht : assureUniformTransform (jsGet0 src "transform") with
        | err e =>
          exact ⟨e, by simp [entryErrorAt, hc, ht], by simp [collectionEntriesLoop, hc, ht]⟩
        | ok t =>
          exact absurd hsrc (by simp [entryPasses, hc, ht])
    | cons a pre ih =>
      intro j hpre hsrc
      have ha := hpre a (by simp)
      have hc : conformsToCollectionEntry a = none := by
        cases hx : conformsToCollectionEntry a with
        | none => rfl
        | some e => rw [entryPasses, hx] at ha; exact absurd ha (by simp)
      have ht : ∃ t, assureUniformTransform (jsGet0 a "transform") = .ok t := by
        cases hx : assureUniformTransform (jsGet0 a "transform") with
        | ok t => exact ⟨t, rfl⟩
        | err e => rw [entryPasses, hc, hx] at ha; exact absurd ha (by simp)
      obtain ⟨t, ht⟩ := ht
      obtain ⟨e, he, hloop⟩ := ih (j + 1) (fun s hs => hpre s (by simp [hs])) hsrc
      refine ⟨e, ?_, ?_⟩
      · rw [← he]
        congr 1
        simp [List.length_cons]
        omega
      · simp [collectionEntriesLoop, hc, ht, hloop]
  refine ⟨?_, ?_, part3, ?_⟩
  · intro n j src t hc
    simp [entryErrorAt, hc]
  · intro n j src e hc ht
    simp [entryErrorAt, hc, ht]
  · intro asset n pre src tail hasset hfield hentries hpre hsrc
    obtain ⟨e, he, hloop⟩ := part3 n pre src tail 0 hpre hsrc
    rw [Nat.zero_add] at he
    exact ⟨e, he, by simp [validateCollectionAssetEntry, hasset, hfield, hentries, hloop]⟩

/-- C6 witness: the amended theorem's last component applied at a concrete
collection asset whose second entry fails the shape check after a first
entry that passes and is normalized. -/
theorem c6_collection_entry_errors_witness :
    ∃ e, entryErrorAt 2 1 (.obj [("transform", .num 5)]) = some e
      ∧ (validateCollectionAssetEntry (.obj [("type", .str "collection"), ("useCase", .str "icon"),
          ("name", .str "c"), ("collection", .obj [("entries",
            .arr [.obj [("transform", .obj [("kind", .str "rotate"), ("amount", .num 90)])],
                  .obj [("transform", .num 5)]])])]) 2).1 = some e :=
  c6_collection_entry_errors.2.2.2
    (.obj [("type", .str "collection"), ("useCase", .str "icon"),
      ("name", .str "c"), ("collection", .obj [("entries",
        .arr [.obj [("transform", .obj [("kind", .str "rotate"), ("amount", .num 90)])],
              .obj [("transform", .num 5)]])])])
    2
    [.obj [("transform", .obj [("kind", .str "rotate"), ("amount", .num 90)])]]
    (.obj [("transform", .num 5)])
    []
    rfl rfl rfl
    (fun s hs => by rw [List.mem_singleton.mp hs]; rfl)
    rfl

/-! C8.  Retrieval failures inside `handleSubFiles`.  The code logs the
declaration's path but returns the retrieval error exactly as produced
(`return {result: null, error: error}` at src/unnamed/part_000 line 365), so
the error handed to the caller is not prefixed with the path. -/

/-- Whether the sub-file loop processes a declaration completely
successfully (type check, retrieval, asset validation, ID assignment). -/
def declPasses (ext : SubFileExternals) (w : World) (d : SettingsSubFile) : Bool :=
  match ext.checkDecl d with
  | some _ => false
  | none =>
    match readIngestFile w d.path with
    | .err _ => false
    | .ok result =>
      match verifyIngestFileAssets result with
      | some _ => false
      | none =>
        match verifySubFileIDAssignments d result with
        | some _ => false
        | none => true

/-- C8 counterexample: a declaration with path "sub.json" whose content
exists but fails to parse makes `handleSubFiles` return the bare parse
error, of which the path is neither a prefix nor even a substring, so the
claim that the returned error is prefixed with the declaration's path is
false. -/
theorem c8_retrieval_error_not_prefixed_cex :
    handleSubFiles ⟨fun _ => none⟩
      ⟨fun _ => true, fun _ => "not json", fun _ => .error "SyntaxError: Unexpected token", "/wd"⟩
      (some [⟨"sub.json", 1, 10⟩])
      = .err "Failed to parse IngestFile: SyntaxError: Unexpected token"
    ∧ ¬ ("sub.json".data <+: "Failed to parse IngestFile: SyntaxError: Unexpected token".data)
    ∧ ¬ ("sub.json".data <:+: "Failed to parse IngestFile: SyntaxError: Unexpected token".data) :=
  ⟨rfl, by decide, by decide⟩

/-- C8 (amended): for every declaration reached by the sub-file loop (all
earlier declarations process successfully) whose type check passes and whose
content retrieval fails, the error returned to the caller of the sub-file
handling step is the retrieval error exactly as produced by `readIngestFile`
(unmodified; the declaration's path appears only in the log line); the same
holds through `handleSubFiles` when the range check passes. -/
theorem c8_retrieval_error_passthrough :
    (∀ (ext : SubFileExternals) (w : World) (pre : List SettingsSubFile) (d : SettingsSubFile)
       (rest : List SettingsSubFile) (e : String),
       (∀ p ∈ pre, declPasses ext w p = true) →
       ext.checkDecl d = none →
       readIngestFile w d.path = .err e →
       subFilesLoop ext w (pre ++ d :: rest) = .err e)
    ∧ (∀ (ext : SubFileExternals) (w : World) (pre : List SettingsSubFile) (d : SettingsSubFile)
        (rest : List SettingsSubFile) (e : String),
        checkIDRangesOfSubFiles (pre ++ d :: rest) = none →
        (∀ p ∈ pre, declPasses ext w p = true) →
        ext.checkDecl d = none →
        readIngestFile w d.path = .err e →
        handleSubFiles ext w (some (pre ++ d :: rest)) = .err e) := by
  have part1 : ∀ (ext : SubFileExternals) (w : World) (pre : List SettingsSubFile)
      (d : SettingsSubFile) (rest : List SettingsSubFile) (e : String),
      (∀ p ∈ pre, declPasses ext w p = true) →
      ext.checkDecl d = none →
      readIngestFile w d.path = .err e →
      subFilesLoop ext w (pre ++ d :: rest) = .err e := by
    intro ext w pre d rest e hpre hd hread
    induction pre with
    | nil => simp [subFilesLoop, hd, hread]
    | cons p pre ih =>
      have hp := hpre p (by simp)
      have hc : ext.checkDecl p = none := by
        cases hx : ext.checkDecl p with
        | none => rfl
        | some t => simp [declPasses, hx] at hp
      have hr : ∃ result, readIngestFile w p.path = .ok result := by
        cases hx : readIngestFile w p.path with
        | ok result => exact ⟨result, rfl⟩
        | err e' => simp [declPasses, hc, hx] at hp
      obtain ⟨result, hr⟩ := hr
      have hv : verifyIngestFileAssets result = none := by
        cases hx : verifyIngestFileAssets result with
        | none => rfl
        | some t => simp [declPasses, hc, hr, hx] at hp
      have hi : verifySubFileIDAssignments p result = none := by
        cases hx : verifySubFileIDAssignments p result with
        | none => rfl
        | some t => simp [declPasses, hc, hr, hv, hx] at hp
      have hrec := ih (fun q hq => hpre q (by simp [hq]))
      simp [subFilesLoop, hc, hr, hv, hi, hrec]
  refine ⟨part1, ?_⟩
  intro ext w pre d rest e hrange hpre hd hread
  have hlen : (pre ++ d :: rest).length = 0 ↔ False := by simp
  simp [handleSubFiles, hrange, part1 ext w pre d rest e hpre hd hread]

/-- C8 witness: the amended theorem applied at a concrete declaration whose
file does not exist; the not-found error of `readIngestFile` is returned
unmodified by `handleSubFiles`. -/
theorem c8_retrieval_error_passthrough_witness :
    handleSubFiles ⟨fun _ => none⟩
      ⟨fun _ => false, fun _ => "", fun _ => .error "unused", "/work"⟩
      (some [⟨"s.json", 1, 5⟩])
      = .err "File: \"s.json\" does not exist. WD: /work" :=
  c8_retrieval_error_passthrough.2 ⟨fun _ => none⟩
    ⟨fun _ => false, fun _ => "", fun _ => .error "unused", "/work"⟩
    [] ⟨"s.json", 1, 5⟩ [] "File: \"s.json\" does not exist. WD: /work"
    rfl (fun p hp => absurd hp (List.not_mem_nil p)) rfl rfl

/-! C3.  The range partitioner. -/

/-- Ordering of declarations by their range start. -/
def leStart (a b : SettingsSubFile) : Prop := a.start ≤ b.start

/-- Two declarations' inclusive ranges `[start, end]` intersect. -/
def RangesOverlap (a b : SettingsSubFile) : Prop :=
  a.start ≤ b.stop ∧ b.start ≤ a.stop

theorem RangesOverlap_symm : Symmetric RangesOverlap :=
  fun _ _ h => ⟨h.2, h.1⟩

instance (a b : SettingsSubFile) : Decidable (RangesOverlap a b) :=
  inferInstanceAs (Decidable (_ ∧ _))

theorem insertByStart_perm (d : SettingsSubFile) (l : List SettingsSubFile) :
    (insertByStart d l).Perm (d :: l) := by
  induction l with
  | nil => exact List.Perm.refl _
  | cons x xs ih =>
    by_cases h : x.start ≤ d.start
    · rw [insertByStart, if_pos h]
      exact (ih.cons x).trans (List.Perm.swap d x xs)
    · rw [insertByStart, if_neg h]

theorem sortByStart_perm (l : List SettingsSubFile) : (sortByStart l).Perm l := by
  induction l with
  | nil => exact List.Perm.refl _
  | cons d ds ih => exact (insertByStart_perm d (sortByStart ds)).trans (ih.cons d)

theorem insertByStart_pairwise (d : SettingsSubFile) (l : List SettingsSubFile)
    (h : l.Pairwise leStart) : (insertByStart d l).Pairwise leStart := by
  induction l with
  | nil => simp [insertByStart, List.pairwise_cons]
  | cons x xs ih =>
    rw [List.pairwise_cons] at h
    obtain ⟨hx, hxs⟩ := h
    by_cases hc : x.start ≤ d.start
    · rw [insertByStart, if_pos hc, List.pairwise_cons]
      refine ⟨?_, ih hxs⟩
      intro y hy
      rw [(insertByStart_perm d xs).mem_iff, List.mem_cons] at hy
      cases hy with
      | inl hy => subst hy; exact hc
      | inr hy => exact hx y hy
    · rw [insertByStart, if_neg hc, List.pairwise_cons]
      refine ⟨?_, List.pairwise_cons.mpr ⟨hx, hxs⟩⟩
      intro y hy
      have hdx : d.start ≤ x.start := Int.le_of_lt (Int.lt_of_not_ge hc)
      rw [List.mem_cons] at hy
      cases hy with
      | inl hy => subst hy; exact hdx
      | inr hy => exact le_trans hdx (hx y hy)

theorem sortByStart_sorted (l : List SettingsSubFile) :
    (sortByStart l).Pairwise leStart := by
  induction l with
  | nil => exact List.Pairwise.nil
  | cons d ds ih => exact insertByStart_pairwise d (sortByStart ds) ih

theorem adjacentScan_overlap (s : List SettingsSubFile) (hs : s.Pairwise leStart)
    (e : RangeCheckError) (h : adjacentScan s = some e) :
    ∃ a b, e = .overlap a b ∧ a ∈ s ∧ b ∈ s ∧ a.start ≤ b.start ∧ b.start ≤ a.stop := by
  induction s with
  | nil => exact absurd h (by simp [adjacentScan])
  | cons a t ih =>
    cases t with
    | nil => exact absurd h (by simp [adjacentScan])
    | cons b rest =>
      rw [List.pairwise_cons] at hs
      obtain ⟨hab, hbs⟩ := hs
      by_cases hc : b.start ≤ a.stop
      · rw [adjacentScan, if_pos hc] at h
        obtain rfl : RangeCheckError.overlap a b = e := Option.some.inj h
        exact ⟨a, b, rfl, by simp, by simp, hab b (by simp), hc⟩
      · rw [adjacentScan, if_neg hc] at h
        obtain ⟨x, y, he, hx, hy, hxy, hyx⟩ := ih hbs h
        exact ⟨x, y, he, List.mem_cons_of_mem a hx, List.mem_cons_of_mem a hy, hxy, hyx⟩

theorem adjacentScan_none_pairwise (s : List SettingsSubFile) (hs : s.Pairwise leStart)
    (h : adjacentScan s = none) :
    s.Pairwise (fun a b => a.stop < b.start) := by
  induction s with
  | nil => exact List.Pairwise.nil
  | cons a t ih =>
    cases t with
    | nil => simp [List.pairwise_cons]
    | cons b rest =>
      rw [List.pairwise_cons] at hs
      obtain ⟨hab, hbs⟩ := hs
      by_cases hc : b.start ≤ a.stop
      · rw [adjacentScan, if_pos hc] at h
        exact absurd h (by simp)
      · rw [adjacentScan, if_neg hc] at h
        have hrec := ih hbs h
        rw [List.pairwise_cons]
        refine ⟨?_, hrec⟩
        intro y hy
        have hax : a.stop < b.start := Int.lt_of_not_ge hc
        rw [List.mem_cons] at hy
        cases hy with
        | inl hy => subst hy; exact hax
        | inr hy =>
          rw [List.pairwise_cons] at hbs
          exact lt_of_lt_of_le hax (hbs.1 y hy)

theorem adjacentScan_none_of_pairwise (s : List SettingsSubFile) (hs : s.Pairwise leStart)
    (hwf : ∀ d ∈ s, d.start ≤ d.stop)
    (hp : s.Pairwise (fun a b => ¬ RangesOverlap a b)) :
    adjacentScan s = none := by
  induction s with
  | nil => rfl
  | cons a t ih =>
    cases t with
    | nil => rfl
    | cons b rest =>
      rw [List.pairwise_cons] at hs hp
      obtain ⟨hab, hbs⟩ := hs
      obtain ⟨hpa, hpbs⟩ := hp
      have hdisj := hpa b (by simp)
      have hc : ¬ b.start ≤ a.stop := by
        intro hc
        exact hdisj ⟨le_trans (hab b (by simp)) (hwf b (by simp)), hc⟩
      rw [adjacentScan, if_neg hc]
      exact ih hbs (fun d hd => hwf d (List.mem_cons_of_mem a hd)) hpbs

/-- C3: the range partitioner check.  The empty and absent declaration lists
succeed (also through `handleSubFiles`); a returned malformed error names a
declaration of the list with `start > end`; a returned overlap error names
two declarations of the list whose inclusive ranges really intersect; the
check fails whenever some declaration is malformed or some two declarations
overlap; and it succeeds on every well-formed pairwise-disjoint declaration
list regardless of order. -/
theorem c3_checkIDRanges_spec :
    (checkIDRangesOfSubFiles [] = none)
    ∧ (∀ (ext : SubFileExternals) (w : World),
        handleSubFiles ext w none = .ok [] ∧ handleSubFiles ext w (some []) = .ok [])
    ∧ (∀ (l : List SettingsSubFile) (d : SettingsSubFile),
        checkIDRangesOfSubFiles l = some (.malformed d) → d ∈ l ∧ d.stop < d.start)
    ∧ (∀ (l : List SettingsSubFile) (a b : SettingsSubFile),
        checkIDRangesOfSubFiles l = some (.overlap a b) →
          a ∈ l ∧ b ∈ l ∧ RangesOverlap a b)
    ∧ (∀ l : List SettingsSubFile,
        ((∃ d ∈ l, d.stop < d.start) ∨ ¬ l.Pairwise (fun a b => ¬ RangesOverlap a b)) →
        checkIDRangesOfSubFiles l ≠ none)
    ∧ (∀ l : List SettingsSubFile, (∀ d ∈ l, d.start ≤ d.stop) →
        l.Pairwise (fun a b => ¬ RangesOverlap a b) →
        checkIDRangesOfSubFiles l = none) := by
  refine ⟨rfl, fun ext w => ⟨rfl, rfl⟩, ?_, ?_, ?_, ?_⟩
  · intro l d h
    rw [checkIDRangesOfSubFiles] at h
    cases hf : l.find? (fun d => decide (d.stop < d.start)) with
    | some d' =>
      rw [hf] at h
      have hd' : d' ∈ l := List.mem_of_find?_eq_some hf
      have hp' : d'.stop < d'.start := by simpa using List.find?_some hf
      obtain rfl : d' = d := RangeCheckError.malformed.inj (Option.some.inj h)
      exact ⟨hd', hp'⟩
    | none =>
      rw [hf] at h
      obtain ⟨a, b, he, _⟩ := adjacentScan_overlap _ (sortByStart_sorted l) _ h
      exact absurd he (by simp)
  · intro l a b h
    rw [checkIDRangesOfSubFiles] at h
    cases hf : l.find? (fun d => decide (d.stop < d.start)) with
    | some d' => rw [hf] at h; exact absurd (Option.some.inj h) (by simp)
    | none =>
      rw [hf] at h
      have hwf : ∀ d ∈ l, d.start ≤ d.stop := by
        rw [List.find?_eq_none] at hf
        intro d hd
        have := hf d hd
        simp at this
        omega
      obtain ⟨x, y, he, hx, hy, hxy, hyx⟩ := adjacentScan_overlap _ (sortByStart_sorted l) _ h
      obtain ⟨rfl, rfl⟩ := RangeCheckError.overlap.inj he
      have hx' := (sortByStart_perm l).mem_iff.mp hx
      have hy' := (sortByStart_perm l).mem_iff.mp hy
      exact ⟨hx', hy', le_trans hxy (hwf _ hy'), hyx⟩
  · intro l hbad h
    rw [checkIDRangesOfSubFiles] at h
    cases hf : l.find? (fun d => decide (d.stop < d.start)) with
    | some d' => rw [hf] at h; exact absurd h (by simp)
    | none =>
      rw [hf] at h
      have hwf : ∀ d ∈ l, d.start ≤ d.stop := by
        rw [List.find?_eq_none] at hf
        intro d hd
        have := hf d hd
        simp at this
        omega
      cases hbad with
      | inl hmal =>
        obtain ⟨d, hd, hlt⟩ := hmal
        exact absurd (hwf d hd) (by omega)
      | inr hov =>
        have hsorted := sortByStart_sorted l
        have hadj := adjacentScan_none_pairwise _ hsorted h
        have himp : ∀ {a b : SettingsSubFile}, a.stop < b.start → ¬ RangesOverlap a b := by
          intro a b hlt hov
          exact (not_le.mpr hlt) hov.2
        have hdisj : (sortByStart l).Pairwise (fun a b => ¬ RangesOverlap a b) :=
          hadj.imp himp
        exact hov (((sortByStart_perm l).pairwise_iff
          (fun hh => fun hc => hh (RangesOverlap_symm hc))).mp hdisj)
  · intro l hwf hp
    rw [checkIDRangesOfSubFiles]
    have hf : l.find? (fun d => decide (d.stop < d.start)) = none := by
      rw [List.find?_eq_none]
      intro d hd
      simp
      exact hwf d hd
    rw [hf]
    exact adjacentScan_none_of_pairwise _ (sortByStart_sorted l)
      (fun d hd => hwf d ((sortByStart_perm l).mem_iff.mp hd))
      (((sortByStart_perm l).pairwise_iff
        (fun hh => fun hc => hh (RangesOverlap_symm hc))).mpr hp)

/-- C3 witness: the theorem's success component applied to a concrete
well-formed disjoint pair given out of order, and its failure component
applied to the spec's end-to-end scenario 2 (ranges [1,10] and [5,15]). -/
theorem c3_checkIDRanges_spec_witness :
    checkIDRangesOfSubFiles [⟨"b", 5, 10⟩, ⟨"a", 1, 4⟩] = none
    ∧ checkIDRangesOfSubFiles [⟨"a", 1, 10⟩, ⟨"b", 5, 15⟩] ≠ none :=
  ⟨c3_checkIDRanges_spec.2.2.2.2.2 [⟨"b", 5, 10⟩, ⟨"a", 1, 4⟩] (by decide) (by decide),
   c3_checkIDRanges_spec.2.2.2.2.1 [⟨"a", 1, 10⟩, ⟨"b", 5, 15⟩] (Or.inr (by decide))⟩

/-! C4.  Identifier assignment verification for sub-manifests. -/

/-- C4: the identifier-assignment check.  A returned error names an
identifier actually found in the sub-manifest together with the violated
bound (the declared start when the identifier is below the range, the
declared end when above); the check fails whenever some identifier lies
outside the inclusive declared range; and it succeeds whenever every
identifier lies within it. -/
theorem c4_idAssignments_spec :
    (∀ (decl : SettingsSubFile) (doc : JSValue) (id bound : Int),
       verifySubFileIDAssignments decl doc = some (.outOfRange id bound) →
         id ∈ idsOfSubManifest doc
         ∧ (id < decl.start ∨ decl.stop < id)
         ∧ ((id < decl.start ∧ bound = decl.start) ∨ (decl.stop < id ∧ bound = decl.stop)))
    ∧ (∀ (decl : SettingsSubFile) (doc : JSValue),
        (∃ id ∈ idsOfSubManifest doc, id < decl.start ∨ decl.stop < id) →
        verifySubFileIDAssignments decl doc ≠ none)
    ∧ (∀ (decl : SettingsSubFile) (doc : JSValue),
        (∀ id ∈ idsOfSubManifest doc, decl.start ≤ id ∧ id ≤ decl.stop) →
        verifySubFileIDAssignments decl doc = none) := by
  refine ⟨?_, ?_, ?_⟩
  · intro decl doc id bound h
    rw [verifySubFileIDAssignments] at h
    cases hf : (idsOfSubManifest doc).find?
        (fun id => decide (id < decl.start) || decide (decl.stop < id)) with
    | none => rw [hf] at h; exact absurd h (by simp)
    | some id' =>
      rw [hf] at h
      have hmem : id' ∈ idsOfSubManifest doc := List.mem_of_find?_eq_some hf
      have hp := List.find?_some hf
      simp at hp
      have hout : id' < decl.start ∨ decl.stop < id' := hp
      have h2 : some (IDAssignError.outOfRange id'
          (if id' < decl.start then decl.start else decl.stop))
          = some (IDAssignError.outOfRange id bound) := h
      obtain ⟨heq, hbound⟩ := IDAssignError.outOfRange.inj (Option.some.inj h2)
      subst heq
      split_ifs at hbound with hc
      · exact ⟨hmem, hout, Or.inl ⟨hc, hbound.symm⟩⟩
      · rcases hout with hl | hr
        · exact absurd hl hc
        · exact ⟨hmem, Or.inr hr, Or.inr ⟨hr, hbound.symm⟩⟩
  · intro decl doc hex
    obtain ⟨id, hid, hout⟩ := hex
    rw [verifySubFileIDAssignments]
    cases hf : (idsOfSubManifest doc).find?
        (fun id => decide (id < decl.start) || decide (decl.stop < id)) with
    | some id' => simp
    | none =>
      rw [List.find?_eq_none] at hf
      have := hf id hid
      simp at this
      obtain ⟨h1, h2⟩ := this
      cases hout with
      | inl hl => exact absurd hl (not_lt.mpr h1)
      | inr hr => exact absurd hr (not_lt.mpr h2)
  · intro decl doc hall
    rw [verifySubFileIDAssignments]
    have hf : (idsOfSubManifest doc).find?
        (fun id => decide (id < decl.start) || decide (decl.stop < id)) = none := by
      rw [List.find?_eq_none]
      intro id hid
      have := hall id hid
      simp
      omega
    rw [hf]

/-- C4 witness: the spec's end-to-end scenario 3 — a sub-manifest declared
with range [1,10] containing an asset with identifier 11 fails naming
identifier 11 and the violated bound 10; the theorem's first component is
applied to that concrete outcome. -/
theorem c4_idAssignments_spec_witness :
    verifySubFileIDAssignments ⟨"s", 1, 10⟩
        (.obj [("assets", .arr [.obj [("id", .num 11)]])])
      = some (.outOfRange 11 10)
    ∧ ((11 : Int) ∈ idsOfSubManifest (.obj [("assets", .arr [.obj [("id", .num 11)]])])
       ∧ ((11 : Int) < 1 ∨ (10 : Int) < 11)
       ∧ (((11 : Int) < 1 ∧ (10 : Int) = 1) ∨ ((10 : Int) < 11 ∧ (10 : Int) = 10))) :=
  ⟨rfl, c4_idAssignments_spec.1 ⟨"s", 1, 10⟩
    (.obj [("assets", .arr [.obj [("id", .num 11)]])]) 11 10 rfl⟩

/-! C10.  Invariants of the LOD generator. -/

theorem lodLoop_prefix (ext : LODExternals) (t : Nat) (bt : ImageMIMEType) :
    ∀ (fuel : Nat) (cur : Blob) (dl : Nat) (acc lods : List LODDTO),
    lodLoop ext t bt fuel cur dl acc = .ok lods → ∃ tail, lods = acc ++ tail := by
  intro fuel
  induction fuel with
  | zero =>
    intro cur dl acc lods h
    rw [lodLoop] at h
    split_ifs at h with hc
    obtain rfl := ResErr.ok.inj h
    exact ⟨[], by simp⟩
  | succ fuel ih =>
    intro cur dl acc lods h
    rw [lodLoop] at h
    split_ifs at h with hc
    · have h' : (match ext.downscaleImage cur with
          | .err e => ResErr.err e
          | .ok result => lodLoop ext t bt fuel result (dl + 1)
              (acc ++ [(⟨dl, result, bt⟩ : LODDTO)])) = .ok lods := h
      cases hd : ext.downscaleImage cur with
      | err e => rw [hd] at h'; exact absurd h' (by simp)
      | ok result =>
        rw [hd] at h'
        obtain ⟨tail, htail⟩ := ih result (dl + 1) (acc ++ [⟨dl, result, bt⟩]) lods h'
        exact ⟨(⟨dl, result, bt⟩ : LODDTO) :: tail,
          htail.trans (by rw [List.append_assoc, List.singleton_append])⟩
    · obtain rfl := ResErr.ok.inj h
      exact ⟨[], by simp⟩

theorem lodLoop_levels (ext : LODExternals) (t : Nat) (bt : ImageMIMEType) :
    ∀ (fuel : Nat) (cur : Blob) (dl : Nat) (acc lods : List LODDTO),
    acc.map (fun l => l.detailLevel) = List.range dl →
    lodLoop ext t bt fuel cur dl acc = .ok lods →
    lods.map (fun l => l.detailLevel) = List.range lods.length := by
  intro fuel
  induction fuel with
  | zero =>
    intro cur dl acc lods hacc h
    rw [lodLoop] at h
    split_ifs at h with hc
    obtain rfl := ResErr.ok.inj h
    have hlen : acc.length = dl := by
      have := congrArg List.length hacc
      simpa using this
    rw [hlen, hacc]
  | succ fuel ih =>
    intro cur dl acc lods hacc h
    rw [lodLoop] at h
    split_ifs at h with hc
    · have h' : (match ext.downscaleImage cur with
          | .err e => ResErr.err e
          | .ok result => lodLoop ext t bt fuel result (dl + 1)
              (acc ++ [(⟨dl, result, bt⟩ : LODDTO)])) = .ok lods := h
      cases hd : ext.downscaleImage cur with
      | err e => rw [hd] at h'; exact absurd h' (by simp)
      | ok result =>
        rw [hd] at h'
        refine ih result (dl + 1) (acc ++ [⟨dl, result, bt⟩]) lods ?_ h'
        rw [List.map_append, hacc, List.range_succ]
        rfl
    · obtain rfl := ResErr.ok.inj h
      have hlen : acc.length = dl := by
        have := congrArg List.length hacc
        simpa using this
      rw [hlen, hacc]

/-- C10: whenever `generateLODs` succeeds, the returned LOD list is
non-empty, its first element is the level-0 LOD holding the original input
blob unchanged (hence with its original type), and the detail levels are the
consecutive integers 0, 1, ..., n in order; and for every blob of size 0 it
returns an error and no LOD list. -/
theorem c10_generateLODs_spec :
    (∀ (ext : LODExternals) (fuel : Nat) (blob : Blob) (t : Nat)
       (ov : Option ImageMIMEType) (lods : List LODDTO),
       generateLODs ext fuel blob t ov = .ok lods →
         lods ≠ []
         ∧ (∃ bt, lods.head? = some ⟨0, blob, bt⟩)
         ∧ lods.map (fun l => l.detailLevel) = List.range lods.length)
    ∧ (∀ (ext : LODExternals) (fuel : Nat) (blob : Blob) (t : Nat)
        (ov : Option ImageMIMEType),
        blob.size = 0 → ∃ e, generateLODs ext fuel blob t ov = .err e) := by
  constructor
  · intro ext fuel blob t ov lods h
    rw [generateLODs.eq_def] at h
    cases hres : (match ov with
        | some t' => ResErr.ok t'
        | none => ext.findConformingMIMEType blob.type) with
    | err e => rw [hres] at h; exact absurd h (by simp)
    | ok bt =>
      rw [hres] at h
      have h' : generateLODsAfterType ext fuel blob t bt = .ok lods := h
      rw [generateLODsAfterType] at h'
      split_ifs at h' with h1 h2 h3 h4
      · obtain rfl := ResErr.ok.inj h'
        exact ⟨by simp, ⟨bt, rfl⟩, rfl⟩
      · obtain rfl := ResErr.ok.inj h'
        exact ⟨by simp, ⟨bt, rfl⟩, rfl⟩
      · obtain ⟨tail, rfl⟩ := lodLoop_prefix ext t bt fuel blob 1 [⟨0, blob, bt⟩] lods h'
        exact ⟨by simp, ⟨bt, rfl⟩,
          lodLoop_levels ext t bt fuel blob 1 [⟨0, blob, bt⟩] _ rfl h'⟩
  · intro ext fuel blob t ov h0
    rw [generateLODs.eq_def]
    cases hres : (match ov with
        | some t' => ResErr.ok t'
        | none => ext.findConformingMIMEType blob.type) with
    | err e => exact ⟨e, rfl⟩
    | ok bt =>
      refine ⟨if (!ext.checkIfImageTypeIsSupported bt) = true
        then "Unsupported image type: " ++ blob.type else "This blob is empty.", ?_⟩
      show generateLODsAfterType ext fuel blob t bt = _
      rw [generateLODsAfterType]
      by_cases h1 : (!ext.checkIfImageTypeIsSupported bt) = true
      · rw [if_pos h1, if_pos h1]
      · rw [if_neg h1, if_neg h1, if_pos h0]

/-- C10 witness: the theorem applied at a concrete run — a 3000-byte PNG with
a 1 KB threshold and a halving downscaler yields the LODs with levels
0, 1, 2 headed by the original blob, and the same pipeline rejects a 0-byte
blob. -/
theorem c10_generateLODs_spec_witness :
    generateLODs ⟨fun _ => .ok .png, fun _ => true, fun b => .ok ⟨b.size / 2, b.type⟩⟩
        5 ⟨3000, "image/png"⟩ 1 none
      = .ok [⟨0, ⟨3000, "image/png"⟩, .png⟩, ⟨1, ⟨1500, "image/png"⟩, .png⟩,
             ⟨2, ⟨750, "image/png"⟩, .png⟩]
    ∧ ([⟨0, ⟨3000, "image/png"⟩, ImageMIMEType.png⟩, ⟨1, ⟨1500, "image/png"⟩, .png⟩,
        ⟨2, ⟨750, "image/png"⟩, .png⟩] : List LODDTO) ≠ []
    ∧ (∃ bt, ([⟨0, ⟨3000, "image/png"⟩, ImageMIMEType.png⟩, ⟨1, ⟨1500, "image/png"⟩, .png⟩,
        ⟨2, ⟨750, "image/png"⟩, .png⟩] : List LODDTO).head?
          = some ⟨0, ⟨3000, "image/png"⟩, bt⟩)
    ∧ ([⟨0, ⟨3000, "image/png"⟩, ImageMIMEType.png⟩, ⟨1, ⟨1500, "image/png"⟩, .png⟩,
        ⟨2, ⟨750, "image/png"⟩, .png⟩] : List LODDTO).map (fun l => l.detailLevel)
          = List.range ([⟨0, ⟨3000, "image/png"⟩, ImageMIMEType.png⟩,
              ⟨1, ⟨1500, "image/png"⟩, .png⟩, ⟨2, ⟨750, "image/png"⟩, .png⟩] : List LODDTO).length
    ∧ (∃ e, generateLODs ⟨fun _ => .ok .png, fun _ => true, fun b => .ok ⟨b.size / 2, b.type⟩⟩
        5 ⟨0, "image/png"⟩ 1 none = .err e) := by
  have h1 := c10_generateLODs_spec.1
    ⟨fun _ => .ok .png, fun _ => true, fun b => .ok ⟨b.size / 2, b.type⟩⟩
    5 ⟨3000, "image/png"⟩ 1 none
    [⟨0, ⟨3000, "image/png"⟩, .png⟩, ⟨1, ⟨1500, "image/png"⟩, .png⟩,
     ⟨2, ⟨750, "image/png"⟩, .png⟩] (by rfl)
  have h2 := c10_generateLODs_spec.2
    ⟨fun _ => .ok .png, fun _ => true, fun b => .ok ⟨b.size / 2, b.type⟩⟩
    5 ⟨0, "image/png"⟩ 1 none rfl
  exact ⟨by rfl, h1.1, h1.2.1, h1.2.2, h2⟩

end Devour
